import Mathlib

/-
Verification development for a forward-chaining deductive database for
synthetic Euclidean geometry.  The engine (`DeductiveDatabase` in
src/src/lib.rs) stores named points with integer coordinates and axiom
facts over fourteen geometric predicates, and `run()` saturates them
under an `ascent!` rule program whose lattice column is a provenance
set of derivations.

The embedding below follows the source:
  * `same_orientation`, `fact_id` — the two auxiliary functions;
  * `Derivation` / `Provenance` — the provenance lattice (BTreeSets are
    modelled as `Finset`s);
  * `Inputs` — the axiom-fact half of the `DeductiveDatabase` struct;
  * `Derives` — the least fixpoint of the `ascent!` program: one
    constructor per rule of the source, plus one axiom-injection
    constructor per relation mirroring the initialisation in `run()`;
  * `DeductiveDatabase` with `new` / `add_*` / `run` / `get_*` — the
    handle lifecycle, with the derived store given denotationally by
    `Derives`.
-/

namespace AscentGeo

/-- A point as stored by the engine: x- and y-coordinate and a name
(the Rust `(i64, i64, String)` triple).  Coordinates are carried as
unbounded `Int`; the fixed-width `i64` arithmetic of the source's
orientation computation is modelled separately by `wrap64` and the
`*64` functions below, which agree with the exact-arithmetic versions
whenever no intermediate value leaves the `i64` range. -/
abbrev Pt := Int × Int × String

/-- The per-edge term of the signed-area sum, as the `edge_length`
closure in `same_orientation` computes it: `(q.0 - p.0) * (q.1 + p.1)`
— here in exact arithmetic; `edge_length64` is the faithful `i64`
version. -/
def edge_length (p q : Pt) : Int :=
  (q.1 - p.1) * (q.2.1 + p.2.1)

/-- The signed-area sum of `same_orientation`:
`(0..l.len()).map(|i| edge_length(l[i], l[(i+1) % l.len()])).sum()`
— in exact arithmetic; `polyArea64` is the faithful `i64` version. -/
def polyArea (l : List Pt) : Int :=
  ((List.range l.length).map
    (fun i => edge_length (l.getD i default) (l.getD ((i + 1) % l.length) default))).sum

/-- `same_orientation(l1, l2)` of the source: true iff the product of
the two signed areas is positive — in exact arithmetic.  This
idealisation is what the closure (`Derives`) uses;
`same_orientation64` below is the faithful `i64` (release-profile,
wrapping) semantics, and the two coincide on coordinates small enough
that no intermediate value overflows. -/
def same_orientation (l1 l2 : List Pt) : Bool :=
  decide (polyArea l1 * polyArea l2 > 0)

/-- Two's-complement normalisation into the `i64` range
[-2^63, 2^63): the value an `i64` holds after a wrapping operation
whose exact result is `z` (Rust release-profile overflow semantics;
a debug build would abort instead of wrapping, and on in-range values
the two agree). -/
def wrap64 (z : Int) : Int :=
  (z + 9223372036854775808) % 18446744073709551616 - 9223372036854775808

/-- `edge_length` as the source computes it in `i64`: the difference,
the sum and the product each wrap. -/
def edge_length64 (p q : Pt) : Int :=
  wrap64 (wrap64 (q.1 - p.1) * wrap64 (q.2.1 + p.2.1))

/-- The signed-area sum as the source computes it in `i64`: the edge
terms wrap and the running sum wraps at every addition. -/
def polyArea64 (l : List Pt) : Int :=
  (((List.range l.length).map
    (fun i => edge_length64 (l.getD i default) (l.getD ((i + 1) % l.length) default))).foldl
      (fun acc t => wrap64 (acc + t)) 0)

/-- `same_orientation` with the source's `i64` arithmetic: true iff
the wrapped product of the two wrapped signed areas is positive. -/
def same_orientation64 (l1 l2 : List Pt) : Bool :=
  decide (wrap64 (polyArea64 l1 * polyArea64 l2) > 0)

/-- Coordinates small enough that the whole orientation computation on
triples stays inside the `i64` range (with lots of headroom):
|x|, |y| ≤ 8192 gives edge terms ≤ 2^28, areas ≤ 3·2^28 and an area
product ≤ 9·2^56 < 2^63. -/
abbrev boundedPt (p : Pt) : Prop :=
  |p.1| ≤ 8192 ∧ |p.2.1| ≤ 8192

/-- `fact_id(pred, args)` of the source:
`format!("{}({})", pred_type, args.join(","))`. -/
def fact_id (pred : String) (args : List String) : String :=
  pred ++ "(" ++ String.intercalate "," args ++ ")"

/-- One justification of a fact: rule tag plus set of parent fact ids
(the Rust `Derivation` struct; its `BTreeSet<String>` is a `Finset`). -/
structure Derivation where
  rule : String
  parents : Finset String
deriving DecidableEq

/-- `Derivation::axiom()`. -/
def Derivation.axm : Derivation := ⟨"axiom", ∅⟩

/-- The provenance lattice element: a set of derivations
(the Rust `Provenance` struct). -/
structure Provenance where
  derivations : Finset Derivation
deriving DecidableEq

/-- `Provenance::axiom()`. -/
def Provenance.axm : Provenance := ⟨{Derivation.axm}⟩

/-- `Provenance::from_rule`. -/
def Provenance.from_rule (rule : String) (parents : Finset String) : Provenance :=
  ⟨{⟨rule, parents⟩}⟩

/-- `Lattice::meet` of the source: it extends the left set with the
right one, i.e. set union. -/
def Provenance.meet (a b : Provenance) : Provenance :=
  ⟨a.derivations ∪ b.derivations⟩

/-- `Lattice::meet_mut` of the source: mutate to the union and report
whether the size of the underlying set grew.  Modelled as returning
the new value together with the `changed?` flag. -/
def Provenance.meet_mut (a b : Provenance) : Provenance × Bool :=
  ((a.meet b), (a.meet b).derivations.card != a.derivations.card)

/-- `Lattice::join_mut` of the source delegates to `meet_mut`. -/
def Provenance.join_mut (a b : Provenance) : Provenance × Bool :=
  a.meet_mut b

/-- A fact: an inhabited tuple of one of the fourteen stored
predicates (the key columns of the source's lattice relations). -/
inductive Fact where
  | col (a b c : String)
  | para (a b c d : String)
  | perp (a b c d : String)
  | cong (a b c d : String)
  | eqangle (a b c d e f : String)
  | cyclic (a b c d : String)
  | sameclock (a b c d e f : String)
  | midp (a b c : String)
  | contri1 (a b c d e f : String)
  | contri2 (a b c d e f : String)
  | simtri1 (a b c d e f : String)
  | simtri2 (a b c d e f : String)
  | eqratio (a b c d e f g h : String)
  | aconst (a b c : String) (m n : Int)
deriving DecidableEq

/-- The input half of the `DeductiveDatabase` struct: the point
universe and the axiom-fact lists filled by the `add_*` methods. -/
structure Inputs where
  points : List Pt
  col_facts : List (String × String × String)
  para_facts : List (String × String × String × String)
  perp_facts : List (String × String × String × String)
  cong_facts : List (String × String × String × String)
  eqangle_facts : List (String × String × String × String × String × String)
  cyclic_facts : List (String × String × String × String)
  sameclock_facts : List (String × String × String × String × String × String)
  midp_facts : List (String × String × String)
  contri1_facts : List (String × String × String × String × String × String)
  contri2_facts : List (String × String × String × String × String × String)
  simtri1_facts : List (String × String × String × String × String × String)
  simtri2_facts : List (String × String × String × String × String × String)
  eqratio_facts : List (String × String × String × String × String × String × String × String)
  aconst_facts : List (String × String × String × Int × Int)

/-- The empty database contents, as `DeductiveDatabase::new()` makes
them. -/
def Inputs.empty : Inputs :=
  ⟨[], [], [], [], [], [], [], [], [], [], [], [], [], [], []⟩

/-- The axiom facts of an input database as `Fact`s, mirroring the
relation initialisation at the top of `run()` (`prog.col = ...` etc.),
where every added tuple enters its relation with axiom provenance. -/
def inputFacts (db : Inputs) : List Fact :=
  db.col_facts.map (fun t => Fact.col t.1 t.2.1 t.2.2) ++
  db.para_facts.map (fun t => Fact.para t.1 t.2.1 t.2.2.1 t.2.2.2) ++
  db.perp_facts.map (fun t => Fact.perp t.1 t.2.1 t.2.2.1 t.2.2.2) ++
  db.cong_facts.map (fun t => Fact.cong t.1 t.2.1 t.2.2.1 t.2.2.2) ++
  db.eqangle_facts.map (fun t => Fact.eqangle t.1 t.2.1 t.2.2.1 t.2.2.2.1 t.2.2.2.2.1 t.2.2.2.2.2) ++
  db.cyclic_facts.map (fun t => Fact.cyclic t.1 t.2.1 t.2.2.1 t.2.2.2) ++
  db.sameclock_facts.map (fun t => Fact.sameclock t.1 t.2.1 t.2.2.1 t.2.2.2.1 t.2.2.2.2.1 t.2.2.2.2.2) ++
  db.midp_facts.map (fun t => Fact.midp t.1 t.2.1 t.2.2) ++
  db.contri1_facts.map (fun t => Fact.contri1 t.1 t.2.1 t.2.2.1 t.2.2.2.1 t.2.2.2.2.1 t.2.2.2.2.2) ++
  db.contri2_facts.map (fun t => Fact.contri2 t.1 t.2.1 t.2.2.1 t.2.2.2.1 t.2.2.2.2.1 t.2.2.2.2.2) ++
  db.simtri1_facts.map (fun t => Fact.simtri1 t.1 t.2.1 t.2.2.1 t.2.2.2.1 t.2.2.2.2.1 t.2.2.2.2.2) ++
  db.simtri2_facts.map (fun t => Fact.simtri2 t.1 t.2.1 t.2.2.1 t.2.2.2.1 t.2.2.2.2.1 t.2.2.2.2.2) ++
  db.eqratio_facts.map (fun t =>
    Fact.eqratio t.1 t.2.1 t.2.2.1 t.2.2.2.1 t.2.2.2.2.1 t.2.2.2.2.2.1 t.2.2.2.2.2.2.1 t.2.2.2.2.2.2.2) ++
  db.aconst_facts.map (fun t => Fact.aconst t.1 t.2.1 t.2.2.1 t.2.2.2.1 t.2.2.2.2)

/-- The least fixpoint of the source's `ascent!` program, as a pair of
a fact and one of its derivations: `Derives db F d` holds iff the
saturated lattice relation for `F`'s predicate holds `F`'s key tuple
with a provenance set containing `d`.  One constructor per rule of the
program, in source order, plus one axiom-injection constructor per
relation for the initialisation `prog.<rel> = <rel>_facts…` in
`run()`. -/
inductive Derives (db : Inputs) : Fact → Derivation → Prop where
  | ax_col {a b c : String} :
      (a, b, c) ∈ db.col_facts → Derives db (.col a b c) Derivation.axm
  | ax_para {a b c d : String} :
      (a, b, c, d) ∈ db.para_facts → Derives db (.para a b c d) Derivation.axm
  | ax_perp {a b c d : String} :
      (a, b, c, d) ∈ db.perp_facts → Derives db (.perp a b c d) Derivation.axm
  | ax_cong {a b c d : String} :
      (a, b, c, d) ∈ db.cong_facts → Derives db (.cong a b c d) Derivation.axm
  | ax_eqangle {a b c d e f : String} :
      (a, b, c, d, e, f) ∈ db.eqangle_facts → Derives db (.eqangle a b c d e f) Derivation.axm
  | ax_cyclic {a b c d : String} :
      (a, b, c, d) ∈ db.cyclic_facts → Derives db (.cyclic a b c d) Derivation.axm
  | ax_sameclock {a b c d e f : String} :
      (a, b, c, d, e, f) ∈ db.sameclock_facts → Derives db (.sameclock a b c d e f) Derivation.axm
  | ax_midp {a b c : String} :
      (a, b, c) ∈ db.midp_facts → Derives db (.midp a b c) Derivation.axm
  | ax_contri1 {a b c d e f : String} :
      (a, b, c, d, e, f) ∈ db.contri1_facts → Derives db (.contri1 a b c d e f) Derivation.axm
  | ax_contri2 {a b c d e f : String} :
      (a, b, c, d, e, f) ∈ db.contri2_facts → Derives db (.contri2 a b c d e f) Derivation.axm
  | ax_simtri1 {a b c d e f : String} :
      (a, b, c, d, e, f) ∈ db.simtri1_facts → Derives db (.simtri1 a b c d e f) Derivation.axm
  | ax_simtri2 {a b c d e f : String} :
      (a, b, c, d, e, f) ∈ db.simtri2_facts → Derives db (.simtri2 a b c d e f) Derivation.axm
  | ax_eqratio {a b c d e f g h : String} :
      (a, b, c, d, e, f, g, h) ∈ db.eqratio_facts →
      Derives db (.eqratio a b c d e f g h) Derivation.axm
  | ax_aconst {a b c : String} {m n : Int} :
      (a, b, c, m, n) ∈ db.aconst_facts → Derives db (.aconst a b c m n) Derivation.axm
  | sym_col_rev {a b c : String} {p : Derivation} :
      Derives db (.col a b c) p →
      Derives db (.col c b a) ⟨"sym", {fact_id "col" [a, b, c]}⟩
  | sym_col_swap {a b c : String} {p : Derivation} :
      Derives db (.col a b c) p →
      Derives db (.col a c b) ⟨"sym", {fact_id "col" [a, b, c]}⟩
  | sym_para_half {a b c d : String} {p : Derivation} :
      Derives db (.para a b c d) p →
      Derives db (.para c d a b) ⟨"sym", {fact_id "para" [a, b, c, d]}⟩
  | sym_para_left {a b c d : String} {p : Derivation} :
      Derives db (.para a b c d) p →
      Derives db (.para b a c d) ⟨"sym", {fact_id "para" [a, b, c, d]}⟩
  | sym_para_right {a b c d : String} {p : Derivation} :
      Derives db (.para a b c d) p →
      Derives db (.para a b d c) ⟨"sym", {fact_id "para" [a, b, c, d]}⟩
  | sym_perp_half {a b c d : String} {p : Derivation} :
      Derives db (.perp a b c d) p →
      Derives db (.perp c d a b) ⟨"sym", {fact_id "perp" [a, b, c, d]}⟩
  | sym_perp_left {a b c d : String} {p : Derivation} :
      Derives db (.perp a b c d) p →
      Derives db (.perp b a c d) ⟨"sym", {fact_id "perp" [a, b, c, d]}⟩
  | sym_perp_right {a b c d : String} {p : Derivation} :
      Derives db (.perp a b c d) p →
      Derives db (.perp a b d c) ⟨"sym", {fact_id "perp" [a, b, c, d]}⟩
  | sym_cong_half {a b c d : String} {p : Derivation} :
      Derives db (.cong a b c d) p →
      Derives db (.cong c d a b) ⟨"sym", {fact_id "cong" [a, b, c, d]}⟩
  | sym_cong_left {a b c d : String} {p : Derivation} :
      Derives db (.cong a b c d) p →
      Derives db (.cong b a c d) ⟨"sym", {fact_id "cong" [a, b, c, d]}⟩
  | sym_cong_right {a b c d : String} {p : Derivation} :
      Derives db (.cong a b c d) p →
      Derives db (.cong a b d c) ⟨"sym", {fact_id "cong" [a, b, c, d]}⟩
  | sym_eqangle_half {a b c d e f : String} {p : Derivation} :
      Derives db (.eqangle a b c d e f) p →
      Derives db (.eqangle d e f a b c) ⟨"sym", {fact_id "eqangle" [a, b, c, d, e, f]}⟩
  | sym_eqangle_rev {a b c d e f : String} {p : Derivation} :
      Derives db (.eqangle a b c d e f) p →
      Derives db (.eqangle c b a f e d) ⟨"sym", {fact_id "eqangle" [a, b, c, d, e, f]}⟩
  | sym_cyclic_rot {a b c d : String} {p : Derivation} :
      Derives db (.cyclic a b c d) p →
      Derives db (.cyclic b c d a) ⟨"sym", {fact_id "cyclic" [a, b, c, d]}⟩
  | sym_cyclic_swap {a b c d : String} {p : Derivation} :
      Derives db (.cyclic a b c d) p →
      Derives db (.cyclic a c b d) ⟨"sym", {fact_id "cyclic" [a, b, c, d]}⟩
  | sym_sameclock_half {a b c d e f : String} {p : Derivation} :
      Derives db (.sameclock a b c d e f) p →
      Derives db (.sameclock d e f a b c) ⟨"sym", {fact_id "sameclock" [a, b, c, d, e, f]}⟩
  | sym_sameclock_rot {a b c d e f : String} {p : Derivation} :
      Derives db (.sameclock a b c d e f) p →
      Derives db (.sameclock a b c f d e) ⟨"sym", {fact_id "sameclock" [a, b, c, d, e, f]}⟩
  | sym_sameclock_rev {a b c d e f : String} {p : Derivation} :
      Derives db (.sameclock a b c d e f) p →
      Derives db (.sameclock c b a f e d) ⟨"sym", {fact_id "sameclock" [a, b, c, d, e, f]}⟩
  | sym_eqratio_half {a b c d e f g h : String} {p : Derivation} :
      Derives db (.eqratio a b c d e f g h) p →
      Derives db (.eqratio e f g h a b c d)
        ⟨"sym", {fact_id "eqratio" [a, b, c, d, e, f, g, h]}⟩
  | sym_eqratio_pairs {a b c d e f g h : String} {p : Derivation} :
      Derives db (.eqratio a b c d e f g h) p →
      Derives db (.eqratio c d a b g h e f)
        ⟨"sym", {fact_id "eqratio" [a, b, c, d, e, f, g, h]}⟩
  | sym_eqratio_cross {a b c d e f g h : String} {p : Derivation} :
      Derives db (.eqratio a b c d e f g h) p →
      Derives db (.eqratio a b e f c d g h)
        ⟨"sym", {fact_id "eqratio" [a, b, c, d, e, f, g, h]}⟩
  | rfl_cong {x1 y1 x2 y2 : Int} {a b : String} :
      (x1, y1, a) ∈ db.points → (x2, y2, b) ∈ db.points → a ≠ b →
      Derives db (.cong a b a b) ⟨"rfl", ∅⟩
  | rfl_para {x1 y1 x2 y2 : Int} {a b : String} :
      (x1, y1, a) ∈ db.points → (x2, y2, b) ∈ db.points → a ≠ b →
      Derives db (.para a b a b) ⟨"rfl", ∅⟩
  | rfl_eqangle {x1 y1 x2 y2 x3 y3 : Int} {a b c : String} :
      (x1, y1, a) ∈ db.points → (x2, y2, b) ∈ db.points → (x3, y3, c) ∈ db.points →
      a ≠ b → a ≠ c → b ≠ c →
      Derives db (.eqangle a b c a b c) ⟨"rfl", ∅⟩
  | right_angle_eq {a b b' c e e' : String} {p1 p2 : Derivation} :
      Derives db (.perp a b b' c) p1 →
      Derives db (.perp a e e' b) p2 →
      b = b' → e = e' →
      a ≠ b → a ≠ c → a ≠ e → b ≠ c → b ≠ e → c ≠ e →
      Derives db (.eqangle c b a b e a)
        ⟨"right_angle_eq", {fact_id "perp" [a, b, b', c], fact_id "perp" [a, e, e', b]}⟩
  | aa_sim_1 {a b c d e f : String} {xa ya xb yb xc yc xd yd xe ye xf yf : Int}
      {p1 p2 : Derivation} :
      Derives db (.eqangle b a c e d f) p1 →
      Derives db (.eqangle b c a e f d) p2 →
      (xa, ya, a) ∈ db.points → (xb, yb, b) ∈ db.points → (xc, yc, c) ∈ db.points →
      (xd, yd, d) ∈ db.points → (xe, ye, e) ∈ db.points → (xf, yf, f) ∈ db.points →
      same_orientation [(xa, ya, a), (xb, yb, b), (xc, yc, c)]
        [(xd, yd, d), (xe, ye, e), (xf, yf, f)] = true →
      Derives db (.simtri1 a b c d e f)
        ⟨"aa_sim", {fact_id "eqangle" [b, a, c, e, d, f], fact_id "eqangle" [b, c, a, e, f, d]}⟩
  | aa_sim_2 {a b c d e f : String} {xa ya xb yb xc yc xd yd xe ye xf yf : Int}
      {p1 p2 : Derivation} :
      Derives db (.eqangle b a c f d e) p1 →
      Derives db (.eqangle b c a d f e) p2 →
      (xa, ya, a) ∈ db.points → (xb, yb, b) ∈ db.points → (xc, yc, c) ∈ db.points →
      (xd, yd, d) ∈ db.points → (xe, ye, e) ∈ db.points → (xf, yf, f) ∈ db.points →
      same_orientation [(xa, ya, a), (xb, yb, b), (xc, yc, c)]
        [(xf, yf, f), (xe, ye, e), (xd, yd, d)] = true →
      Derives db (.simtri2 a b c d e f)
        ⟨"aa_sim", {fact_id "eqangle" [b, a, c, f, d, e], fact_id "eqangle" [b, c, a, d, f, e]}⟩
  | asa_1 {a b c d e f : String} {xa ya xb yb xc yc xd yd xe ye xf yf : Int}
      {p1 p2 p3 : Derivation} :
      Derives db (.eqangle b a c e d f) p1 →
      Derives db (.eqangle c b a f e d) p2 →
      Derives db (.cong a b d e) p3 →
      (xa, ya, a) ∈ db.points → (xb, yb, b) ∈ db.points → (xc, yc, c) ∈ db.points →
      (xd, yd, d) ∈ db.points → (xe, ye, e) ∈ db.points → (xf, yf, f) ∈ db.points →
      same_orientation [(xa, ya, a), (xb, yb, b), (xc, yc, c)]
        [(xd, yd, d), (xe, ye, e), (xf, yf, f)] = true →
      Derives db (.contri1 a b c d e f)
        ⟨"asa_cong", {fact_id "eqangle" [b, a, c, e, d, f], fact_id "eqangle" [c, b, a, f, e, d],
          fact_id "cong" [a, b, d, e]}⟩
  | asa_2 {a b c d e f : String} {xa ya xb yb xc yc xd yd xe ye xf yf : Int}
      {p1 p2 p3 : Derivation} :
      Derives db (.eqangle b a c f d e) p1 →
      Derives db (.eqangle c b a d e f) p2 →
      Derives db (.cong a b d e) p3 →
      (xa, ya, a) ∈ db.points → (xb, yb, b) ∈ db.points → (xc, yc, c) ∈ db.points →
      (xd, yd, d) ∈ db.points → (xe, ye, e) ∈ db.points → (xf, yf, f) ∈ db.points →
      same_orientation [(xa, ya, a), (xb, yb, b), (xc, yc, c)]
        [(xf, yf, f), (xe, ye, e), (xd, yd, d)] = true →
      Derives db (.contri2 a b c d e f)
        ⟨"asa_cong", {fact_id "eqangle" [b, a, c, f, d, e], fact_id "eqangle" [c, b, a, d, e, f],
          fact_id "cong" [a, b, d, e]}⟩
  | sas_1 {a b c d e f : String} {xa ya xb yb xc yc xd yd xe ye xf yf : Int}
      {p1 p2 p3 : Derivation} :
      Derives db (.eqangle b a c e d f) p1 →
      Derives db (.cong a c d f) p2 →
      Derives db (.cong a b d e) p3 →
      (xa, ya, a) ∈ db.points → (xb, yb, b) ∈ db.points → (xc, yc, c) ∈ db.points →
      (xd, yd, d) ∈ db.points → (xe, ye, e) ∈ db.points → (xf, yf, f) ∈ db.points →
      same_orientation [(xa, ya, a), (xb, yb, b), (xc, yc, c)]
        [(xd, yd, d), (xe, ye, e), (xf, yf, f)] = true →
      Derives db (.contri1 a b c d e f)
        ⟨"sas_cong", {fact_id "eqangle" [b, a, c, e, d, f], fact_id "cong" [a, c, d, f],
          fact_id "cong" [a, b, d, e]}⟩
  | sas_2 {a b c d e f : String} {xa ya xb yb xc yc xd yd xe ye xf yf : Int}
      {p1 p2 p3 : Derivation} :
      Derives db (.eqangle b a c f d e) p1 →
      Derives db (.cong a c d f) p2 →
      Derives db (.cong a b d e) p3 →
      (xa, ya, a) ∈ db.points → (xb, yb, b) ∈ db.points → (xc, yc, c) ∈ db.points →
      (xd, yd, d) ∈ db.points → (xe, ye, e) ∈ db.points → (xf, yf, f) ∈ db.points →
      same_orientation [(xa, ya, a), (xb, yb, b), (xc, yc, c)]
        [(xf, yf, f), (xe, ye, e), (xd, yd, d)] = true →
      Derives db (.contri2 a b c d e f)
        ⟨"sas_cong", {fact_id "eqangle" [b, a, c, f, d, e], fact_id "cong" [a, c, d, f],
          fact_id "cong" [a, b, d, e]}⟩
  | sss_1 {a b c d e f : String} {xa ya xb yb xc yc xd yd xe ye xf yf : Int}
      {p1 p2 p3 : Derivation} :
      Derives db (.cong a c d f) p1 →
      Derives db (.cong a b d e) p2 →
      Derives db (.cong c b f e) p3 →
      (xa, ya, a) ∈ db.points → (xb, yb, b) ∈ db.points → (xc, yc, c) ∈ db.points →
      (xd, yd, d) ∈ db.points → (xe, ye, e) ∈ db.points → (xf, yf, f) ∈ db.points →
      same_orientation [(xa, ya, a), (xb, yb, b), (xc, yc, c)]
        [(xd, yd, d), (xe, ye, e), (xf, yf, f)] = true →
      Derives db (.contri1 a b c d e f)
        ⟨"sss_cong", {fact_id "cong" [a, c, d, f], fact_id "cong" [a, b, d, e],
          fact_id "cong" [c, b, f, e]}⟩
  | sss_2 {a b c d e f : String} {xa ya xb yb xc yc xd yd xe ye xf yf : Int}
      {p1 p2 p3 : Derivation} :
      Derives db (.cong a c d f) p1 →
      Derives db (.cong a b d e) p2 →
      Derives db (.cong c b f e) p3 →
      (xa, ya, a) ∈ db.points → (xb, yb, b) ∈ db.points → (xc, yc, c) ∈ db.points →
      (xd, yd, d) ∈ db.points → (xe, ye, e) ∈ db.points → (xf, yf, f) ∈ db.points →
      same_orientation [(xa, ya, a), (xb, yb, b), (xc, yc, c)]
        [(xf, yf, f), (xe, ye, e), (xd, yd, d)] = true →
      Derives db (.contri2 a b c d e f)
        ⟨"sss_cong", {fact_id "cong" [a, c, d, f], fact_id "cong" [a, b, d, e],
          fact_id "cong" [c, b, f, e]}⟩
  | ssa_1 {a b a' c d e d' f : String} {xa ya xb yb xc yc xd yd xe ye xf yf : Int}
      {p1 p2 p3 p4 : Derivation} :
      Derives db (.perp a b a' c) p1 →
      Derives db (.perp d e d' f) p2 →
      Derives db (.cong a b d e) p3 →
      Derives db (.cong b c e f) p4 →
      (xa, ya, a) ∈ db.points → (xb, yb, b) ∈ db.points → (xc, yc, c) ∈ db.points →
      (xd, yd, d) ∈ db.points → (xe, ye, e) ∈ db.points → (xf, yf, f) ∈ db.points →
      same_orientation [(xa, ya, a), (xb, yb, b), (xc, yc, c)]
        [(xd, yd, d), (xe, ye, e), (xf, yf, f)] = true →
      a = a' → d = d' →
      Derives db (.contri1 a b c d e f)
        ⟨"ssa_right_cong", {fact_id "perp" [a, b, a', c], fact_id "perp" [d, e, d', f],
          fact_id "cong" [a, b, d, e], fact_id "cong" [b, c, e, f]}⟩
  | ssa_2 {a b a' c d e d' f : String} {xa ya xb yb xc yc xd yd xe ye xf yf : Int}
      {p1 p2 p3 p4 : Derivation} :
      Derives db (.perp a b a' c) p1 →
      Derives db (.perp d e d' f) p2 →
      Derives db (.cong a b d e) p3 →
      Derives db (.cong b c e f) p4 →
      (xa, ya, a) ∈ db.points → (xb, yb, b) ∈ db.points → (xc, yc, c) ∈ db.points →
      (xd, yd, d) ∈ db.points → (xe, ye, e) ∈ db.points → (xf, yf, f) ∈ db.points →
      same_orientation [(xa, ya, a), (xb, yb, b), (xc, yc, c)]
        [(xf, yf, f), (xe, ye, e), (xd, yd, d)] = true →
      a = a' → d = d' →
      Derives db (.contri2 a b c d e f)
        ⟨"ssa_right_cong", {fact_id "perp" [a, b, a', c], fact_id "perp" [d, e, d', f],
          fact_id "cong" [a, b, d, e], fact_id "cong" [b, c, e, f]}⟩
  | inscribed {o a o' b c b' d c' : String} {p1 p2 p3 p4 p5 : Derivation} :
      Derives db (.cong o a o' b) p1 →
      Derives db (.cong o c o' b) p2 →
      Derives db (.cong o c o' a) p3 →
      Derives db (.perp o b b' d) p4 →
      Derives db (.eqangle a o c c' o b) p5 →
      o = o' → b = b' → c = c' →
      a ≠ b → a ≠ c → a ≠ d → b ≠ c → b ≠ d → c ≠ d →
      Derives db (.eqangle a b c c b d)
        ⟨"inscribed_angle_thm", {fact_id "cong" [o, a, o', b], fact_id "cong" [o, c, o', b],
          fact_id "cong" [o, c, o', a], fact_id "perp" [o, b, b', d],
          fact_id "eqangle" [a, o, c, c', o, b]}⟩
  | thales {b r y d o o' : String} {p1 p2 p3 p4 : Derivation} :
      Derives db (.cyclic b r y d) p1 →
      Derives db (.cong b o r o') p2 →
      Derives db (.cong r o d o') p3 →
      Derives db (.col b o d) p4 →
      o = o' →
      b ≠ r → b ≠ y → b ≠ d → r ≠ y → r ≠ d → y ≠ d →
      Derives db (.perp b r r d)
        ⟨"thales_thm", {fact_id "cyclic" [b, r, y, d], fact_id "cong" [b, o, r, o'],
          fact_id "cong" [r, o, d, o'], fact_id "col" [b, o, d]}⟩

/-- A fact is in the closure iff it has at least one derivation. -/
def InClosure (db : Inputs) (F : Fact) : Prop :=
  ∃ d, Derives db F d

/-- The engine handle: the input half (points and `*_facts` lists) and
the derived half (the `derived_*` vectors, merged over the `Fact` sum
and given as the set of fact/derivation pairs of the store). -/
structure DeductiveDatabase where
  inp : Inputs
  derived : Fact → Derivation → Prop

/-- `DeductiveDatabase::new()`: everything empty. -/
def DeductiveDatabase.new : DeductiveDatabase :=
  ⟨Inputs.empty, fun _ _ => False⟩

/-- `add_point`: silently ignore a duplicate name, else push. -/
def DeductiveDatabase.add_point (db : DeductiveDatabase) (x y : Int) (name : String) :
    DeductiveDatabase :=
  if db.inp.points.any (fun p => p.2.2 == name) then db
  else { db with inp := { db.inp with points := db.inp.points ++ [(x, y, name)] } }

/-- `add_col`. -/
def DeductiveDatabase.add_col (db : DeductiveDatabase) (a b c : String) : DeductiveDatabase :=
  { db with inp := { db.inp with col_facts := db.inp.col_facts ++ [(a, b, c)] } }

/-- `add_para`. -/
def DeductiveDatabase.add_para (db : DeductiveDatabase) (a b c d : String) : DeductiveDatabase :=
  { db with inp := { db.inp with para_facts := db.inp.para_facts ++ [(a, b, c, d)] } }

/-- `add_perp`. -/
def DeductiveDatabase.add_perp (db : DeductiveDatabase) (a b c d : String) : DeductiveDatabase :=
  { db with inp := { db.inp with perp_facts := db.inp.perp_facts ++ [(a, b, c, d)] } }

/-- `add_cong`. -/
def DeductiveDatabase.add_cong (db : DeductiveDatabase) (a b c d : String) : DeductiveDatabase :=
  { db with inp := { db.inp with cong_facts := db.inp.cong_facts ++ [(a, b, c, d)] } }

/-- `add_eqangle`. -/
def DeductiveDatabase.add_eqangle (db : DeductiveDatabase) (a b c d e f : String) :
    DeductiveDatabase :=
  { db with inp := { db.inp with eqangle_facts := db.inp.eqangle_facts ++ [(a, b, c, d, e, f)] } }

/-- `add_cyclic`. -/
def DeductiveDatabase.add_cyclic (db : DeductiveDatabase) (a b c d : String) : DeductiveDatabase :=
  { db with inp := { db.inp with cyclic_facts := db.inp.cyclic_facts ++ [(a, b, c, d)] } }

/-- `add_sameclock`. -/
def DeductiveDatabase.add_sameclock (db : DeductiveDatabase) (a b c d e f : String) :
    DeductiveDatabase :=
  { db with inp :=
      { db.inp with sameclock_facts := db.inp.sameclock_facts ++ [(a, b, c, d, e, f)] } }

/-- `add_midp`. -/
def DeductiveDatabase.add_midp (db : DeductiveDatabase) (a b c : String) : DeductiveDatabase :=
  { db with inp := { db.inp with midp_facts := db.inp.midp_facts ++ [(a, b, c)] } }

/-- `add_contri1`. -/
def DeductiveDatabase.add_contri1 (db : DeductiveDatabase) (a b c d e f : String) :
    DeductiveDatabase :=
  { db with inp := { db.inp with contri1_facts := db.inp.contri1_facts ++ [(a, b, c, d, e, f)] } }

/-- `add_contri2`. -/
def DeductiveDatabase.add_contri2 (db : DeductiveDatabase) (a b c d e f : String) :
    DeductiveDatabase :=
  { db with inp := { db.inp with contri2_facts := db.inp.contri2_facts ++ [(a, b, c, d, e, f)] } }

/-- `add_simtri1`. -/
def DeductiveDatabase.add_simtri1 (db : DeductiveDatabase) (a b c d e f : String) :
    DeductiveDatabase :=
  { db with inp := { db.inp with simtri1_facts := db.inp.simtri1_facts ++ [(a, b, c, d, e, f)] } }

/-- `add_simtri2`. -/
def DeductiveDatabase.add_simtri2 (db : DeductiveDatabase) (a b c d e f : String) :
    DeductiveDatabase :=
  { db with inp := { db.inp with simtri2_facts := db.inp.simtri2_facts ++ [(a, b, c, d, e, f)] } }

/-- `add_eqratio`. -/
def DeductiveDatabase.add_eqratio (db : DeductiveDatabase) (a b c d e f g h : String) :
    DeductiveDatabase :=
  { db with inp :=
      { db.inp with eqratio_facts := db.inp.eqratio_facts ++ [(a, b, c, d, e, f, g, h)] } }

/-- `add_aconst`. -/
def DeductiveDatabase.add_aconst (db : DeductiveDatabase) (a b c : String) (m n : Int) :
    DeductiveDatabase :=
  { db with inp := { db.inp with aconst_facts := db.inp.aconst_facts ++ [(a, b, c, m, n)] } }

/-- `run()`: the inputs are only read (the Rust code clones them into
the ascent program), the fixpoint is computed from them alone, and the
derived store is overwritten with the saturated relations, whose
denotation is `Derives`. -/
def DeductiveDatabase.run (db : DeductiveDatabase) : DeductiveDatabase :=
  { db with derived := fun F p => Derives db.inp F p }

/-- `get_points`. -/
def DeductiveDatabase.get_points (db : DeductiveDatabase) : List Pt :=
  db.inp.points

/-- `get_col`: the derivation set the output row for `col(a,b,c)`
carries (a row is present iff this set is non-empty). -/
def DeductiveDatabase.get_col (db : DeductiveDatabase) (a b c : String) : Set Derivation :=
  { p | db.derived (.col a b c) p }

/-- `get_para`. -/
def DeductiveDatabase.get_para (db : DeductiveDatabase) (a b c d : String) : Set Derivation :=
  { p | db.derived (.para a b c d) p }

/-- `get_perp`. -/
def DeductiveDatabase.get_perp (db : DeductiveDatabase) (a b c d : String) : Set Derivation :=
  { p | db.derived (.perp a b c d) p }

/-- `get_cong`. -/
def DeductiveDatabase.get_cong (db : DeductiveDatabase) (a b c d : String) : Set Derivation :=
  { p | db.derived (.cong a b c d) p }

/-- `get_eqangle`. -/
def DeductiveDatabase.get_eqangle (db : DeductiveDatabase) (a b c d e f : String) :
    Set Derivation :=
  { p | db.derived (.eqangle a b c d e f) p }

/-- `get_cyclic`. -/
def DeductiveDatabase.get_cyclic (db : DeductiveDatabase) (a b c d : String) : Set Derivation :=
  { p | db.derived (.cyclic a b c d) p }

/-- `get_sameclock`. -/
def DeductiveDatabase.get_sameclock (db : DeductiveDatabase) (a b c d e f : String) :
    Set Derivation :=
  { p | db.derived (.sameclock a b c d e f) p }

/-- `get_midp`. -/
def DeductiveDatabase.get_midp (db : DeductiveDatabase) (a b c : String) : Set Derivation :=
  { p | db.derived (.midp a b c) p }

/-- `get_contri1`. -/
def DeductiveDatabase.get_contri1 (db : DeductiveDatabase) (a b c d e f : String) :
    Set Derivation :=
  { p | db.derived (.contri1 a b c d e f) p }

/-- `get_contri2`. -/
def DeductiveDatabase.get_contri2 (db : DeductiveDatabase) (a b c d e f : String) :
    Set Derivation :=
  { p | db.derived (.contri2 a b c d e f) p }

/-- `get_simtri1`. -/
def DeductiveDatabase.get_simtri1 (db : DeductiveDatabase) (a b c d e f : String) :
    Set Derivation :=
  { p | db.derived (.simtri1 a b c d e f) p }

/-- `get_simtri2`. -/
def DeductiveDatabase.get_simtri2 (db : DeductiveDatabase) (a b c d e f : String) :
    Set Derivation :=
  { p | db.derived (.simtri2 a b c d e f) p }

/-- `get_eqratio`. -/
def DeductiveDatabase.get_eqratio (db : DeductiveDatabase) (a b c d e f g h : String) :
    Set Derivation :=
  { p | db.derived (.eqratio a b c d e f g h) p }

/-- `get_aconst`. -/
def DeductiveDatabase.get_aconst (db : DeductiveDatabase) (a b c : String) (m n : Int) :
    Set Derivation :=
  { p | db.derived (.aconst a b c m n) p }

/-- One pre-`run()` mutating call on the handle: `add_point` or one of
the fourteen `add_<pred>` methods. -/
inductive Op where
  | addPoint (x y : Int) (name : String)
  | addCol (a b c : String)
  | addPara (a b c d : String)
  | addPerp (a b c d : String)
  | addCong (a b c d : String)
  | addEqangle (a b c d e f : String)
  | addCyclic (a b c d : String)
  | addSameclock (a b c d e f : String)
  | addMidp (a b c : String)
  | addContri1 (a b c d e f : String)
  | addContri2 (a b c d e f : String)
  | addSimtri1 (a b c d e f : String)
  | addSimtri2 (a b c d e f : String)
  | addEqratio (a b c d e f g h : String)
  | addAconst (a b c : String) (m n : Int)

/-- Apply one `add_*` call. -/
def applyOp (db : DeductiveDatabase) : Op → DeductiveDatabase
  | .addPoint x y name => db.add_point x y name
  | .addCol a b c => db.add_col a b c
  | .addPara a b c d => db.add_para a b c d
  | .addPerp a b c d => db.add_perp a b c d
  | .addCong a b c d => db.add_cong a b c d
  | .addEqangle a b c d e f => db.add_eqangle a b c d e f
  | .addCyclic a b c d => db.add_cyclic a b c d
  | .addSameclock a b c d e f => db.add_sameclock a b c d e f
  | .addMidp a b c => db.add_midp a b c
  | .addContri1 a b c d e f => db.add_contri1 a b c d e f
  | .addContri2 a b c d e f => db.add_contri2 a b c d e f
  | .addSimtri1 a b c d e f => db.add_simtri1 a b c d e f
  | .addSimtri2 a b c d e f => db.add_simtri2 a b c d e f
  | .addEqratio a b c d e f g h => db.add_eqratio a b c d e f g h
  | .addAconst a b c m n => db.add_aconst a b c m n

/-- Apply a sequence of `add_*` calls, oldest first. -/
def applyOps (db : DeductiveDatabase) (ops : List Op) : DeductiveDatabase :=
  ops.foldl applyOp db

/-! ## Scenario databases -/

/-- Scenario (1): points A(0,0), B(10,0), C(5,5), axioms
`para(A,B,A,B)`, `cong(A,B,B,C)`, `cong(B,C,C,A)`. -/
def dbTriangle : Inputs :=
  { Inputs.empty with
    points := [(0, 0, "A"), (10, 0, "B"), (5, 5, "C")]
    para_facts := [("A", "B", "A", "B")]
    cong_facts := [("A", "B", "B", "C"), ("B", "C", "C", "A")] }

/-- Scenario (2): three distinct named points with the single axiom
`col(A,B,C)`. -/
def dbColSym : Inputs :=
  { Inputs.empty with
    points := [(0, 0, "A"), (1, 0, "B"), (0, 1, "C")]
    col_facts := [("A", "B", "C")] }

/-- A database with an empty point universe and one `col` axiom whose
names have no corresponding point. -/
def dbUnknownName : Inputs :=
  { Inputs.empty with col_facts := [("X", "Y", "Z")] }

/-- Scenario (4): points B(-1,0), R(0,1), Y(0,-1), D(1,0), O(0,0) with
axioms `cyclic(B,R,Y,D)`, `cong(B,O,R,O)`, `cong(R,O,D,O)`,
`col(B,O,D)`. -/
def dbThales : Inputs :=
  { Inputs.empty with
    points := [(-1, 0, "B"), (0, 1, "R"), (0, -1, "Y"), (1, 0, "D"), (0, 0, "O")]
    cyclic_facts := [("B", "R", "Y", "D")]
    cong_facts := [("B", "O", "R", "O"), ("R", "O", "D", "O")]
    col_facts := [("B", "O", "D")] }

/-- Scenario (6): points A(0,0), B(3,0), C(0,4), D(10,0), E(13,0) and
the mirror point F(10,-4) (the spec's F'), with axioms
`cong(A,B,D,E)`, `cong(B,C,E,F)`, `cong(A,C,D,F)`. -/
def dbMirror : Inputs :=
  { Inputs.empty with
    points := [(0, 0, "A"), (3, 0, "B"), (0, 4, "C"), (10, 0, "D"), (13, 0, "E"), (10, -4, "F")]
    cong_facts := [("A", "B", "D", "E"), ("B", "C", "E", "F"), ("A", "C", "D", "F")] }

/-! ## Helper lemmas -/

/-- The `add_*` methods never touch the derived store. -/
lemma applyOp_derived (db : DeductiveDatabase) (op : Op) :
    (applyOp db op).derived = db.derived := by
  cases op <;> try rfl
  simp only [applyOp, DeductiveDatabase.add_point]
  split <;> rfl

/-- Sequences of `add_*` calls never touch the derived store. -/
lemma applyOps_derived (ops : List Op) (db : DeductiveDatabase) :
    (applyOps db ops).derived = db.derived := by
  induction ops generalizing db with
  | nil => rfl
  | cons op ops ih => rw [applyOps, List.foldl_cons, ← applyOps, ih, applyOp_derived]

/-! ## Claim theorems -/

/-- C7.  The provenance lattice join of two derivation sets is their
set union, and the mutating join reports change precisely: it returns
true iff the right operand is not a subset of the left one. -/
theorem C7_provenance_join (a b : Provenance) :
    (a.meet b).derivations = a.derivations ∪ b.derivations ∧
    (a.join_mut b).1.derivations = a.derivations ∪ b.derivations ∧
    ((a.join_mut b).2 = true ↔ ¬ b.derivations ⊆ a.derivations) := by
  refine ⟨rfl, rfl, ?_⟩
  simp only [Provenance.join_mut, Provenance.meet_mut, Provenance.meet, bne_iff_ne, ne_eq]
  have hcard : (a.derivations ∪ b.derivations).card = a.derivations.card ↔
      b.derivations ⊆ a.derivations := by
    constructor
    · intro h
      have heq := Finset.eq_of_subset_of_card_le Finset.subset_union_left (le_of_eq h)
      exact Finset.union_eq_left.mp heq.symm
    · intro h
      rw [Finset.union_eq_left.mpr h]
  exact not_congr hcard

/-- C8.  `run()` is idempotent: running again with no `add_*` calls in
between leaves the handle (inputs and the whole derived store) equal
to the result of a single run. -/
theorem C8_run_idempotent (db : DeductiveDatabase) :
    db.run.run = db.run := rfl

/-- C10.  Before `run()` has ever been called, every `get_<pred>()`
accessor returns the empty sequence, whatever `add_*` calls (points or
axiom facts) have been made on the fresh handle. -/
theorem C10_get_empty_before_run (ops : List Op) :
    (∀ a b c, (applyOps DeductiveDatabase.new ops).get_col a b c = ∅) ∧
    (∀ a b c d, (applyOps DeductiveDatabase.new ops).get_para a b c d = ∅) ∧
    (∀ a b c d, (applyOps DeductiveDatabase.new ops).get_perp a b c d = ∅) ∧
    (∀ a b c d, (applyOps DeductiveDatabase.new ops).get_cong a b c d = ∅) ∧
    (∀ a b c d e f, (applyOps DeductiveDatabase.new ops).get_eqangle a b c d e f = ∅) ∧
    (∀ a b c d, (applyOps DeductiveDatabase.new ops).get_cyclic a b c d = ∅) ∧
    (∀ a b c d e f, (applyOps DeductiveDatabase.new ops).get_sameclock a b c d e f = ∅) ∧
    (∀ a b c, (applyOps DeductiveDatabase.new ops).get_midp a b c = ∅) ∧
    (∀ a b c d e f, (applyOps DeductiveDatabase.new ops).get_contri1 a b c d e f = ∅) ∧
    (∀ a b c d e f, (applyOps DeductiveDatabase.new ops).get_contri2 a b c d e f = ∅) ∧
    (∀ a b c d e f, (applyOps DeductiveDatabase.new ops).get_simtri1 a b c d e f = ∅) ∧
    (∀ a b c d e f, (applyOps DeductiveDatabase.new ops).get_simtri2 a b c d e f = ∅) ∧
    (∀ a b c d e f g h, (applyOps DeductiveDatabase.new ops).get_eqratio a b c d e f g h = ∅) ∧
    (∀ a b c m n, (applyOps DeductiveDatabase.new ops).get_aconst a b c m n = ∅) := by
  have hd := applyOps_derived ops DeductiveDatabase.new
  refine ⟨?_, ?_, ?_, ?_, ?_, ?_, ?_, ?_, ?_, ?_, ?_, ?_, ?_, ?_⟩ <;>
    intros <;>
    ext p <;>
    simp only [DeductiveDatabase.get_col, DeductiveDatabase.get_para, DeductiveDatabase.get_perp,
      DeductiveDatabase.get_cong, DeductiveDatabase.get_eqangle, DeductiveDatabase.get_cyclic,
      DeductiveDatabase.get_sameclock, DeductiveDatabase.get_midp,
      DeductiveDatabase.get_contri1, DeductiveDatabase.get_contri2,
      DeductiveDatabase.get_simtri1, DeductiveDatabase.get_simtri2,
      DeductiveDatabase.get_eqratio, DeductiveDatabase.get_aconst,
      Set.mem_setOf_eq, Set.mem_empty_iff_false, iff_false] <;>
    rw [hd] <;>
    exact fun h => h

/-- C4.  Symmetric closure: each declared symmetric rewrite of a tuple
in the closure is itself in the closure, carrying a `sym` derivation
whose single parent is the source tuple's fact id (for col, para,
perp, cong, eqangle, cyclic, sameclock, eqratio). -/
theorem C4_symmetric_closure (db : Inputs) :
    (∀ a b c p, Derives db (.col a b c) p →
      Derives db (.col c b a) ⟨"sym", {fact_id "col" [a, b, c]}⟩ ∧
      Derives db (.col a c b) ⟨"sym", {fact_id "col" [a, b, c]}⟩) ∧
    (∀ a b c d p, Derives db (.para a b c d) p →
      Derives db (.para c d a b) ⟨"sym", {fact_id "para" [a, b, c, d]}⟩ ∧
      Derives db (.para b a c d) ⟨"sym", {fact_id "para" [a, b, c, d]}⟩ ∧
      Derives db (.para a b d c) ⟨"sym", {fact_id "para" [a, b, c, d]}⟩) ∧
    (∀ a b c d p, Derives db (.perp a b c d) p →
      Derives db (.perp c d a b) ⟨"sym", {fact_id "perp" [a, b, c, d]}⟩ ∧
      Derives db (.perp b a c d) ⟨"sym", {fact_id "perp" [a, b, c, d]}⟩ ∧
      Derives db (.perp a b d c) ⟨"sym", {fact_id "perp" [a, b, c, d]}⟩) ∧
    (∀ a b c d p, Derives db (.cong a b c d) p →
      Derives db (.cong c d a b) ⟨"sym", {fact_id "cong" [a, b, c, d]}⟩ ∧
      Derives db (.cong b a c d) ⟨"sym", {fact_id "cong" [a, b, c, d]}⟩ ∧
      Derives db (.cong a b d c) ⟨"sym", {fact_id "cong" [a, b, c, d]}⟩) ∧
    (∀ a b c d e f p, Derives db (.eqangle a b c d e f) p →
      Derives db (.eqangle d e f a b c) ⟨"sym", {fact_id "eqangle" [a, b, c, d, e, f]}⟩ ∧
      Derives db (.eqangle c b a f e d) ⟨"sym", {fact_id "eqangle" [a, b, c, d, e, f]}⟩) ∧
    (∀ a b c d p, Derives db (.cyclic a b c d) p →
      Derives db (.cyclic b c d a) ⟨"sym", {fact_id "cyclic" [a, b, c, d]}⟩ ∧
      Derives db (.cyclic a c b d) ⟨"sym", {fact_id "cyclic" [a, b, c, d]}⟩) ∧
    (∀ a b c d e f p, Derives db (.sameclock a b c d e f) p →
      Derives db (.sameclock d e f a b c) ⟨"sym", {fact_id "sameclock" [a, b, c, d, e, f]}⟩ ∧
      Derives db (.sameclock a b c f d e) ⟨"sym", {fact_id "sameclock" [a, b, c, d, e, f]}⟩ ∧
      Derives db (.sameclock c b a f e d) ⟨"sym", {fact_id "sameclock" [a, b, c, d, e, f]}⟩) ∧
    (∀ a b c d e f g h p, Derives db (.eqratio a b c d e f g h) p →
      Derives db (.eqratio e f g h a b c d)
        ⟨"sym", {fact_id "eqratio" [a, b, c, d, e, f, g, h]}⟩ ∧
      Derives db (.eqratio c d a b g h e f)
        ⟨"sym", {fact_id "eqratio" [a, b, c, d, e, f, g, h]}⟩ ∧
      Derives db (.eqratio a b e f c d g h)
        ⟨"sym", {fact_id "eqratio" [a, b, c, d, e, f, g, h]}⟩) :=
  ⟨fun _ _ _ _ h => ⟨.sym_col_rev h, .sym_col_swap h⟩,
   fun _ _ _ _ _ h => ⟨.sym_para_half h, .sym_para_left h, .sym_para_right h⟩,
   fun _ _ _ _ _ h => ⟨.sym_perp_half h, .sym_perp_left h, .sym_perp_right h⟩,
   fun _ _ _ _ _ h => ⟨.sym_cong_half h, .sym_cong_left h, .sym_cong_right h⟩,
   fun _ _ _ _ _ _ _ h => ⟨.sym_eqangle_half h, .sym_eqangle_rev h⟩,
   fun _ _ _ _ _ h => ⟨.sym_cyclic_rot h, .sym_cyclic_swap h⟩,
   fun _ _ _ _ _ _ _ h => ⟨.sym_sameclock_half h, .sym_sameclock_rot h, .sym_sameclock_rev h⟩,
   fun _ _ _ _ _ _ _ _ _ h =>
     ⟨.sym_eqratio_half h, .sym_eqratio_pairs h, .sym_eqratio_cross h⟩⟩

/-- Witness for C4 at the scenario-(2) database: from the axiom
`col(A,B,C)`, the rewrite `col(C,B,A)` is derived by `sym` with the
single parent `col(A,B,C)`. -/
theorem C4_symmetric_closure_witness :
    Derives dbColSym (.col "C" "B" "A") ⟨"sym", {fact_id "col" ["A", "B", "C"]}⟩ :=
  (((C4_symmetric_closure dbColSym).1) "A" "B" "C" Derivation.axm
    (Derives.ax_col (by simp [dbColSym]))).1

/-- C5.  Thales's theorem rule: from `cyclic(b,r,y,d)`, `cong(b,o,r,o)`,
`cong(r,o,d,o)` and `col(b,o,d)` with the rule's distinctness guard,
`perp(b,r,r,d)` is derived with tag `thales_thm`; and in scenario (4)
the closure contains `perp(B,R,R,D)` tagged `thales_thm` together with
its three symmetry rewrites. -/
theorem C5_thales_rule :
    (∀ (db : Inputs) (b r y d o o' : String) (p1 p2 p3 p4 : Derivation),
      Derives db (.cyclic b r y d) p1 →
      Derives db (.cong b o r o') p2 →
      Derives db (.cong r o d o') p3 →
      Derives db (.col b o d) p4 →
      o = o' → b ≠ r → b ≠ y → b ≠ d → r ≠ y → r ≠ d → y ≠ d →
      Derives db (.perp b r r d)
        ⟨"thales_thm", {fact_id "cyclic" [b, r, y, d], fact_id "cong" [b, o, r, o'],
          fact_id "cong" [r, o, d, o'], fact_id "col" [b, o, d]}⟩) ∧
    Derives dbThales (.perp "B" "R" "R" "D")
      ⟨"thales_thm", {fact_id "cyclic" ["B", "R", "Y", "D"], fact_id "cong" ["B", "O", "R", "O"],
        fact_id "cong" ["R", "O", "D", "O"], fact_id "col" ["B", "O", "D"]}⟩ ∧
    InClosure dbThales (.perp "R" "D" "B" "R") ∧
    InClosure dbThales (.perp "R" "B" "R" "D") ∧
    InClosure dbThales (.perp "B" "R" "D" "R") := by
  have hperp : Derives dbThales (.perp "B" "R" "R" "D")
      ⟨"thales_thm", {fact_id "cyclic" ["B", "R", "Y", "D"], fact_id "cong" ["B", "O", "R", "O"],
        fact_id "cong" ["R", "O", "D", "O"], fact_id "col" ["B", "O", "D"]}⟩ :=
    Derives.thales (.ax_cyclic (by simp [dbThales])) (.ax_cong (by simp [dbThales]))
      (.ax_cong (by simp [dbThales])) (.ax_col (by simp [dbThales])) rfl
      (by decide) (by decide) (by decide) (by decide) (by decide) (by decide)
  exact ⟨fun db b r y d o o' p1 p2 p3 p4 h1 h2 h3 h4 ho h5 h6 h7 h8 h9 h10 =>
      Derives.thales h1 h2 h3 h4 ho h5 h6 h7 h8 h9 h10,
    hperp, ⟨_, .sym_perp_half hperp⟩, ⟨_, .sym_perp_left hperp⟩, ⟨_, .sym_perp_right hperp⟩⟩

/-- Witness for C5: the general rule applied at the scenario-(4)
database with its axiom facts. -/
theorem C5_thales_rule_witness :
    Derives dbThales (.perp "B" "R" "R" "D")
      ⟨"thales_thm", {fact_id "cyclic" ["B", "R", "Y", "D"], fact_id "cong" ["B", "O", "R", "O"],
        fact_id "cong" ["R", "O", "D", "O"], fact_id "col" ["B", "O", "D"]}⟩ :=
  C5_thales_rule.1 dbThales "B" "R" "Y" "D" "O" "O"
    Derivation.axm Derivation.axm Derivation.axm Derivation.axm
    (.ax_cyclic (by simp [dbThales])) (.ax_cong (by simp [dbThales]))
    (.ax_cong (by simp [dbThales])) (.ax_col (by simp [dbThales])) rfl
    (by decide) (by decide) (by decide) (by decide) (by decide) (by decide)

/-- The spec's per-triangle signed area: the cyclic sum over the
triple of `(x_next - x) * (y_next + y)`.  Written out from the spec's
words, to be compared against the source's `same_orientation`. -/
def specSignedArea (p1 p2 p3 : Pt) : Int :=
  (p2.1 - p1.1) * (p2.2.1 + p1.2.1) + (p3.1 - p2.1) * (p3.2.1 + p2.2.1) +
    (p1.1 - p3.1) * (p1.2.1 + p3.2.1)

/-- The source's signed-area sum on a triple agrees with the spec's
cyclic-sum formula. -/
lemma polyArea_triple (p1 p2 p3 : Pt) :
    polyArea [p1, p2, p3] = specSignedArea p1 p2 p3 := by
  simp [polyArea, edge_length, specSignedArea, List.range_succ]
  ring

/-- Replace every point's coordinates (a name-preserving transform of
the point list); all axiom-fact lists stay as they are. -/
def mapPts (T : Pt → Pt) (db : Inputs) : Inputs :=
  { db with points := db.points.map T }

lemma mem_mapPts_of_mem {T : Pt → Pt} (hname : ∀ p : Pt, (T p).2.2 = p.2.2)
    {db : Inputs} {x y : Int} {a : String} (h : (x, y, a) ∈ db.points) :
    ∃ x' y', (x', y', a) ∈ (mapPts T db).points ∧ (x', y', a) = T (x, y, a) := by
  have hn : (T (x, y, a)).2.2 = a := hname (x, y, a)
  have he : ((T (x, y, a)).1, (T (x, y, a)).2.1, a) = T (x, y, a) :=
    Prod.ext rfl (Prod.ext rfl hn.symm)
  refine ⟨(T (x, y, a)).1, (T (x, y, a)).2.1, ?_, he⟩
  show ((T (x, y, a)).1, (T (x, y, a)).2.1, a) ∈ List.map T db.points
  rw [he]
  exact List.mem_map_of_mem T h

lemma mem_of_mem_mapPts {T : Pt → Pt} (hname : ∀ p : Pt, (T p).2.2 = p.2.2)
    {db : Inputs} {x y : Int} {a : String} (h : (x, y, a) ∈ (mapPts T db).points) :
    ∃ x' y', (x', y', a) ∈ db.points ∧ T (x', y', a) = (x, y, a) := by
  obtain ⟨u, hu, hTu⟩ := List.mem_map.mp h
  have hn : u.2.2 = a := by rw [← hname u, hTu]
  have heu : (u.1, u.2.1, a) = u :=
    Prod.ext rfl (Prod.ext rfl hn.symm)
  refine ⟨u.1, u.2.1, ?_, ?_⟩
  · rw [heu]; exact hu
  · rw [heu]; exact hTu

/-- Forward half of coordinate invariance: a name-preserving,
orientation-preserving change of coordinates preserves every
derivation. -/
lemma derives_mapPts_of_derives {T : Pt → Pt} (hname : ∀ p : Pt, (T p).2.2 = p.2.2)
    (hT : ∀ u v w u2 v2 w2 : Pt,
      same_orientation [T u, T v, T w] [T u2, T v2, T w2] =
        same_orientation [u, v, w] [u2, v2, w2])
    {db : Inputs} {F : Fact} {pd : Derivation} (h : Derives db F pd) :
    Derives (mapPts T db) F pd := by
  induction h
  case ax_col => rename_i h; exact .ax_col h
  case ax_para => rename_i h; exact .ax_para h
  case ax_perp => rename_i h; exact .ax_perp h
  case ax_cong => rename_i h; exact .ax_cong h
  case ax_eqangle => rename_i h; exact .ax_eqangle h
  case ax_cyclic => rename_i h; exact .ax_cyclic h
  case ax_sameclock => rename_i h; exact .ax_sameclock h
  case ax_midp => rename_i h; exact .ax_midp h
  case ax_contri1 => rename_i h; exact .ax_contri1 h
  case ax_contri2 => rename_i h; exact .ax_contri2 h
  case ax_simtri1 => rename_i h; exact .ax_simtri1 h
  case ax_simtri2 => rename_i h; exact .ax_simtri2 h
  case ax_eqratio => rename_i h; exact .ax_eqratio h
  case ax_aconst => rename_i h; exact .ax_aconst h
  case sym_col_rev => rename_i h ih; exact .sym_col_rev ih
  case sym_col_swap => rename_i h ih; exact .sym_col_swap ih
  case sym_para_half => rename_i h ih; exact .sym_para_half ih
  case sym_para_left => rename_i h ih; exact .sym_para_left ih
  case sym_para_right => rename_i h ih; exact .sym_para_right ih
  case sym_perp_half => rename_i h ih; exact .sym_perp_half ih
  case sym_perp_left => rename_i h ih; exact .sym_perp_left ih
  case sym_perp_right => rename_i h ih; exact .sym_perp_right ih
  case sym_cong_half => rename_i h ih; exact .sym_cong_half ih
  case sym_cong_left => rename_i h ih; exact .sym_cong_left ih
  case sym_cong_right => rename_i h ih; exact .sym_cong_right ih
  case sym_eqangle_half => rename_i h ih; exact .sym_eqangle_half ih
  case sym_eqangle_rev => rename_i h ih; exact .sym_eqangle_rev ih
  case sym_cyclic_rot => rename_i h ih; exact .sym_cyclic_rot ih
  case sym_cyclic_swap => rename_i h ih; exact .sym_cyclic_swap ih
  case sym_sameclock_half => rename_i h ih; exact .sym_sameclock_half ih
  case sym_sameclock_rot => rename_i h ih; exact .sym_sameclock_rot ih
  case sym_sameclock_rev => rename_i h ih; exact .sym_sameclock_rev ih
  case sym_eqratio_half => rename_i h ih; exact .sym_eqratio_half ih
  case sym_eqratio_pairs => rename_i h ih; exact .sym_eqratio_pairs ih
  case sym_eqratio_cross => rename_i h ih; exact .sym_eqratio_cross ih
  case rfl_cong =>
    rename_i h1 h2 hne
    obtain ⟨x1, y1, hm1, _⟩ := mem_mapPts_of_mem hname h1
    obtain ⟨x2, y2, hm2, _⟩ := mem_mapPts_of_mem hname h2
    exact .rfl_cong hm1 hm2 hne
  case rfl_para =>
    rename_i h1 h2 hne
    obtain ⟨x1, y1, hm1, _⟩ := mem_mapPts_of_mem hname h1
    obtain ⟨x2, y2, hm2, _⟩ := mem_mapPts_of_mem hname h2
    exact .rfl_para hm1 hm2 hne
  case rfl_eqangle =>
    rename_i h1 h2 h3 hab hac hbc
    obtain ⟨x1, y1, hm1, _⟩ := mem_mapPts_of_mem hname h1
    obtain ⟨x2, y2, hm2, _⟩ := mem_mapPts_of_mem hname h2
    obtain ⟨x3, y3, hm3, _⟩ := mem_mapPts_of_mem hname h3
    exact .rfl_eqangle hm1 hm2 hm3 hab hac hbc
  case right_angle_eq =>
    rename_i h1 h2 hb he hab hac hae hbc hbe hce ih1 ih2
    exact .right_angle_eq ih1 ih2 hb he hab hac hae hbc hbe hce
  case aa_sim_1 =>
    rename_i h1 h2 hpa hpb hpc hpd hpe hpf hor ih1 ih2
    obtain ⟨xa, ya, hma, hea⟩ := mem_mapPts_of_mem hname hpa
    obtain ⟨xb, yb, hmb, heb⟩ := mem_mapPts_of_mem hname hpb
    obtain ⟨xc, yc, hmc, hec⟩ := mem_mapPts_of_mem hname hpc
    obtain ⟨xd, yd, hmd, hed⟩ := mem_mapPts_of_mem hname hpd
    obtain ⟨xe, ye, hme, hee⟩ := mem_mapPts_of_mem hname hpe
    obtain ⟨xf, yf, hmf, hef⟩ := mem_mapPts_of_mem hname hpf
    refine .aa_sim_1 ih1 ih2 hma hmb hmc hmd hme hmf ?_
    rw [hea, heb, hec, hed, hee, hef, hT]
    exact hor
  case aa_sim_2 =>
    rename_i h1 h2 hpa hpb hpc hpd hpe hpf hor ih1 ih2
    obtain ⟨xa, ya, hma, hea⟩ := mem_mapPts_of_mem hname hpa
    obtain ⟨xb, yb, hmb, heb⟩ := mem_mapPts_of_mem hname hpb
    obtain ⟨xc, yc, hmc, hec⟩ := mem_mapPts_of_mem hname hpc
    obtain ⟨xd, yd, hmd, hed⟩ := mem_mapPts_of_mem hname hpd
    obtain ⟨xe, ye, hme, hee⟩ := mem_mapPts_of_mem hname hpe
    obtain ⟨xf, yf, hmf, hef⟩ := mem_mapPts_of_mem hname hpf
    refine .aa_sim_2 ih1 ih2 hma hmb hmc hmd hme hmf ?_
    rw [hea, heb, hec, hed, hee, hef, hT]
    exact hor
  case asa_1 =>
    rename_i h1 h2 h3 hpa hpb hpc hpd hpe hpf hor ih1 ih2 ih3
    obtain ⟨xa, ya, hma, hea⟩ := mem_mapPts_of_mem hname hpa
    obtain ⟨xb, yb, hmb, heb⟩ := mem_mapPts_of_mem hname hpb
    obtain ⟨xc, yc, hmc, hec⟩ := mem_mapPts_of_mem hname hpc
    obtain ⟨xd, yd, hmd, hed⟩ := mem_mapPts_of_mem hname hpd
    obtain ⟨xe, ye, hme, hee⟩ := mem_mapPts_of_mem hname hpe
    obtain ⟨xf, yf, hmf, hef⟩ := mem_mapPts_of_mem hname hpf
    refine .asa_1 ih1 ih2 ih3 hma hmb hmc hmd hme hmf ?_
    rw [hea, heb, hec, hed, hee, hef, hT]
    exact hor
  case asa_2 =>
    rename_i h1 h2 h3 hpa hpb hpc hpd hpe hpf hor ih1 ih2 ih3
    obtain ⟨xa, ya, hma, hea⟩ := mem_mapPts_of_mem hname hpa
    obtain ⟨xb, yb, hmb, heb⟩ := mem_mapPts_of_mem hname hpb
    obtain ⟨xc, yc, hmc, hec⟩ := mem_mapPts_of_mem hname hpc
    obtain ⟨xd, yd, hmd, hed⟩ := mem_mapPts_of_mem hname hpd
    obtain ⟨xe, ye, hme, hee⟩ := mem_mapPts_of_mem hname hpe
    obtain ⟨xf, yf, hmf, hef⟩ := mem_mapPts_of_mem hname hpf
    refine .asa_2 ih1 ih2 ih3 hma hmb hmc hmd hme hmf ?_
    rw [hea, heb, hec, hed, hee, hef, hT]
    exact hor
  case sas_1 =>
    rename_i h1 h2 h3 hpa hpb hpc hpd hpe hpf hor ih1 ih2 ih3
    obtain ⟨xa, ya, hma, hea⟩ := mem_mapPts_of_mem hname hpa
    obtain ⟨xb, yb, hmb, heb⟩ := mem_mapPts_of_mem hname hpb
    obtain ⟨xc, yc, hmc, hec⟩ := mem_mapPts_of_mem hname hpc
    obtain ⟨xd, yd, hmd, hed⟩ := mem_mapPts_of_mem hname hpd
    obtain ⟨xe, ye, hme, hee⟩ := mem_mapPts_of_mem hname hpe
    obtain ⟨xf, yf, hmf, hef⟩ := mem_mapPts_of_mem hname hpf
    refine .sas_1 ih1 ih2 ih3 hma hmb hmc hmd hme hmf ?_
    rw [hea, heb, hec, hed, hee, hef, hT]
    exact hor
  case sas_2 =>
    rename_i h1 h2 h3 hpa hpb hpc hpd hpe hpf hor ih1 ih2 ih3
    obtain ⟨xa, ya, hma, hea⟩ := mem_mapPts_of_mem hname hpa
    obtain ⟨xb, yb, hmb, heb⟩ := mem_mapPts_of_mem hname hpb
    obtain ⟨xc, yc, hmc, hec⟩ := mem_mapPts_of_mem hname hpc
    obtain ⟨xd, yd, hmd, hed⟩ := mem_mapPts_of_mem hname hpd
    obtain ⟨xe, ye, hme, hee⟩ := mem_mapPts_of_mem hname hpe
    obtain ⟨xf, yf, hmf, hef⟩ := mem_mapPts_of_mem hname hpf
    refine .sas_2 ih1 ih2 ih3 hma hmb hmc hmd hme hmf ?_
    rw [hea, heb, hec, hed, hee, hef, hT]
    exact hor
  case sss_1 =>
    rename_i h1 h2 h3 hpa hpb hpc hpd hpe hpf hor ih1 ih2 ih3
    obtain ⟨xa, ya, hma, hea⟩ := mem_mapPts_of_mem hname hpa
    obtain ⟨xb, yb, hmb, heb⟩ := mem_mapPts_of_mem hname hpb
    obtain ⟨xc, yc, hmc, hec⟩ := mem_mapPts_of_mem hname hpc
    obtain ⟨xd, yd, hmd, hed⟩ := mem_mapPts_of_mem hname hpd
    obtain ⟨xe, ye, hme, hee⟩ := mem_mapPts_of_mem hname hpe
    obtain ⟨xf, yf, hmf, hef⟩ := mem_mapPts_of_mem hname hpf
    refine .sss_1 ih1 ih2 ih3 hma hmb hmc hmd hme hmf ?_
    rw [hea, heb, hec, hed, hee, hef, hT]
    exact hor
  case sss_2 =>
    rename_i h1 h2 h3 hpa hpb hpc hpd hpe hpf hor ih1 ih2 ih3
    obtain ⟨xa, ya, hma, hea⟩ := mem_mapPts_of_mem hname hpa
    obtain ⟨xb, yb, hmb, heb⟩ := mem_mapPts_of_mem hname hpb
    obtain ⟨xc, yc, hmc, hec⟩ := mem_mapPts_of_mem hname hpc
    obtain ⟨xd, yd, hmd, hed⟩ := mem_mapPts_of_mem hname hpd
    obtain ⟨xe, ye, hme, hee⟩ := mem_mapPts_of_mem hname hpe
    obtain ⟨xf, yf, hmf, hef⟩ := mem_mapPts_of_mem hname hpf
    refine .sss_2 ih1 ih2 ih3 hma hmb hmc hmd hme hmf ?_
    rw [hea, heb, hec, hed, hee, hef, hT]
    exact hor
  case ssa_1 =>
    rename_i h1 h2 h3 h4 hpa hpb hpc hpd hpe hpf hor haa hdd ih1 ih2 ih3 ih4
    obtain ⟨xa, ya, hma, hea⟩ := mem_mapPts_of_mem hname hpa
    obtain ⟨xb, yb, hmb, heb⟩ := mem_mapPts_of_mem hname hpb
    obtain ⟨xc, yc, hmc, hec⟩ := mem_mapPts_of_mem hname hpc
    obtain ⟨xd, yd, hmd, hed⟩ := mem_mapPts_of_mem hname hpd
    obtain ⟨xe, ye, hme, hee⟩ := mem_mapPts_of_mem hname hpe
    obtain ⟨xf, yf, hmf, hef⟩ := mem_mapPts_of_mem hname hpf
    refine .ssa_1 ih1 ih2 ih3 ih4 hma hmb hmc hmd hme hmf ?_ haa hdd
    rw [hea, heb, hec, hed, hee, hef, hT]
    exact hor
  case ssa_2 =>
    rename_i h1 h2 h3 h4 hpa hpb hpc hpd hpe hpf hor haa hdd ih1 ih2 ih3 ih4
    obtain ⟨xa, ya, hma, hea⟩ := mem_mapPts_of_mem hname hpa
    obtain ⟨xb, yb, hmb, heb⟩ := mem_mapPts_of_mem hname hpb
    obtain ⟨xc, yc, hmc, hec⟩ := mem_mapPts_of_mem hname hpc
    obtain ⟨xd, yd, hmd, hed⟩ := mem_mapPts_of_mem hname hpd
    obtain ⟨xe, ye, hme, hee⟩ := mem_mapPts_of_mem hname hpe
    obtain ⟨xf, yf, hmf, hef⟩ := mem_mapPts_of_mem hname hpf
    refine .ssa_2 ih1 ih2 ih3 ih4 hma hmb hmc hmd hme hmf ?_ haa hdd
    rw [hea, heb, hec, hed, hee, hef, hT]
    exact hor
  case inscribed =>
    rename_i h1 h2 h3 h4 h5 ho hb hc hab hac had hbc hbd hcd ih1 ih2 ih3 ih4 ih5
    exact .inscribed ih1 ih2 ih3 ih4 ih5 ho hb hc hab hac had hbc hbd hcd
  case thales =>
    rename_i h1 h2 h3 h4 ho g1 g2 g3 g4 g5 g6 ih1 ih2 ih3 ih4
    exact .thales ih1 ih2 ih3 ih4 ho g1 g2 g3 g4 g5 g6

/-- Backward half of coordinate invariance. -/
lemma derives_of_derives_mapPts {T : Pt → Pt} (hname : ∀ p : Pt, (T p).2.2 = p.2.2)
    (hT : ∀ u v w u2 v2 w2 : Pt,
      same_orientation [T u, T v, T w] [T u2, T v2, T w2] =
        same_orientation [u, v, w] [u2, v2, w2])
    {db : Inputs} {F : Fact} {pd : Derivation} (h : Derives (mapPts T db) F pd) :
    Derives db F pd := by
  induction h
  case ax_col => rename_i h; exact .ax_col h
  case ax_para => rename_i h; exact .ax_para h
  case ax_perp => rename_i h; exact .ax_perp h
  case ax_cong => rename_i h; exact .ax_cong h
  case ax_eqangle => rename_i h; exact .ax_eqangle h
  case ax_cyclic => rename_i h; exact .ax_cyclic h
  case ax_sameclock => rename_i h; exact .ax_sameclock h
  case ax_midp => rename_i h; exact .ax_midp h
  case ax_contri1 => rename_i h; exact .ax_contri1 h
  case ax_contri2 => rename_i h; exact .ax_contri2 h
  case ax_simtri1 => rename_i h; exact .ax_simtri1 h
  case ax_simtri2 => rename_i h; exact .ax_simtri2 h
  case ax_eqratio => rename_i h; exact .ax_eqratio h
  case ax_aconst => rename_i h; exact .ax_aconst h
  case sym_col_rev => rename_i h ih; exact .sym_col_rev ih
  case sym_col_swap => rename_i h ih; exact .sym_col_swap ih
  case sym_para_half => rename_i h ih; exact .sym_para_half ih
  case sym_para_left => rename_i h ih; exact .sym_para_left ih
  case sym_para_right => rename_i h ih; exact .sym_para_right ih
  case sym_perp_half => rename_i h ih; exact .sym_perp_half ih
  case sym_perp_left => rename_i h ih; exact .sym_perp_left ih
  case sym_perp_right => rename_i h ih; exact .sym_perp_right ih
  case sym_cong_half => rename_i h ih; exact .sym_cong_half ih
  case sym_cong_left => rename_i h ih; exact .sym_cong_left ih
  case sym_cong_right => rename_i h ih; exact .sym_cong_right ih
  case sym_eqangle_half => rename_i h ih; exact .sym_eqangle_half ih
  case sym_eqangle_rev => rename_i h ih; exact .sym_eqangle_rev ih
  case sym_cyclic_rot => rename_i h ih; exact .sym_cyclic_rot ih
  case sym_cyclic_swap => rename_i h ih; exact .sym_cyclic_swap ih
  case sym_sameclock_half => rename_i h ih; exact .sym_sameclock_half ih
  case sym_sameclock_rot => rename_i h ih; exact .sym_sameclock_rot ih
  case sym_sameclock_rev => rename_i h ih; exact .sym_sameclock_rev ih
  case sym_eqratio_half => rename_i h ih; exact .sym_eqratio_half ih
  case sym_eqratio_pairs => rename_i h ih; exact .sym_eqratio_pairs ih
  case sym_eqratio_cross => rename_i h ih; exact .sym_eqratio_cross ih
  case rfl_cong =>
    rename_i h1 h2 hne
    obtain ⟨x1, y1, hm1, _⟩ := mem_of_mem_mapPts hname h1
    obtain ⟨x2, y2, hm2, _⟩ := mem_of_mem_mapPts hname h2
    exact .rfl_cong hm1 hm2 hne
  case rfl_para =>
    rename_i h1 h2 hne
    obtain ⟨x1, y1, hm1, _⟩ := mem_of_mem_mapPts hname h1
    obtain ⟨x2, y2, hm2, _⟩ := mem_of_mem_mapPts hname h2
    exact .rfl_para hm1 hm2 hne
  case rfl_eqangle =>
    rename_i h1 h2 h3 hab hac hbc
    obtain ⟨x1, y1, hm1, _⟩ := mem_of_mem_mapPts hname h1
    obtain ⟨x2, y2, hm2, _⟩ := mem_of_mem_mapPts hname h2
    obtain ⟨x3, y3, hm3, _⟩ := mem_of_mem_mapPts hname h3
    exact .rfl_eqangle hm1 hm2 hm3 hab hac hbc
  case right_angle_eq =>
    rename_i h1 h2 hb he hab hac hae hbc hbe hce ih1 ih2
    exact .right_angle_eq ih1 ih2 hb he hab hac hae hbc hbe hce
  case aa_sim_1 =>
    rename_i h1 h2 hpa hpb hpc hpd hpe hpf hor ih1 ih2
    obtain ⟨xa, ya, hma, hea⟩ := mem_of_mem_mapPts hname hpa
    obtain ⟨xb, yb, hmb, heb⟩ := mem_of_mem_mapPts hname hpb
    obtain ⟨xc, yc, hmc, hec⟩ := mem_of_mem_mapPts hname hpc
    obtain ⟨xd, yd, hmd, hed⟩ := mem_of_mem_mapPts hname hpd
    obtain ⟨xe, ye, hme, hee⟩ := mem_of_mem_mapPts hname hpe
    obtain ⟨xf, yf, hmf, hef⟩ := mem_of_mem_mapPts hname hpf
    refine .aa_sim_1 ih1 ih2 hma hmb hmc hmd hme hmf ?_
    rw [← hT, hea, heb, hec, hed, hee, hef]
    exact hor
  case aa_sim_2 =>
    rename_i h1 h2 hpa hpb hpc hpd hpe hpf hor ih1 ih2
    obtain ⟨xa, ya, hma, hea⟩ := mem_of_mem_mapPts hname hpa
    obtain ⟨xb, yb, hmb, heb⟩ := mem_of_mem_mapPts hname hpb
    obtain ⟨xc, yc, hmc, hec⟩ := mem_of_mem_mapPts hname hpc
    obtain ⟨xd, yd, hmd, hed⟩ := mem_of_mem_mapPts hname hpd
    obtain ⟨xe, ye, hme, hee⟩ := mem_of_mem_mapPts hname hpe
    obtain ⟨xf, yf, hmf, hef⟩ := mem_of_mem_mapPts hname hpf
    refine .aa_sim_2 ih1 ih2 hma hmb hmc hmd hme hmf ?_
    rw [← hT, hea, heb, hec, hed, hee, hef]
    exact hor
  case asa_1 =>
    rename_i h1 h2 h3 hpa hpb hpc hpd hpe hpf hor ih1 ih2 ih3
    obtain ⟨xa, ya, hma, hea⟩ := mem_of_mem_mapPts hname hpa
    obtain ⟨xb, yb, hmb, heb⟩ := mem_of_mem_mapPts hname hpb
    obtain ⟨xc, yc, hmc, hec⟩ := mem_of_mem_mapPts hname hpc
    obtain ⟨xd, yd, hmd, hed⟩ := mem_of_mem_mapPts hname hpd
    obtain ⟨xe, ye, hme, hee⟩ := mem_of_mem_mapPts hname hpe
    obtain ⟨xf, yf, hmf, hef⟩ := mem_of_mem_mapPts hname hpf
    refine .asa_1 ih1 ih2 ih3 hma hmb hmc hmd hme hmf ?_
    rw [← hT, hea, heb, hec, hed, hee, hef]
    exact hor
  case asa_2 =>
    rename_i h1 h2 h3 hpa hpb hpc hpd hpe hpf hor ih1 ih2 ih3
    obtain ⟨xa, ya, hma, hea⟩ := mem_of_mem_mapPts hname hpa
    obtain ⟨xb, yb, hmb, heb⟩ := mem_of_mem_mapPts hname hpb
    obtain ⟨xc, yc, hmc, hec⟩ := mem_of_mem_mapPts hname hpc
    obtain ⟨xd, yd, hmd, hed⟩ := mem_of_mem_mapPts hname hpd
    obtain ⟨xe, ye, hme, hee⟩ := mem_of_mem_mapPts hname hpe
    obtain ⟨xf, yf, hmf, hef⟩ := mem_of_mem_mapPts hname hpf
    refine .asa_2 ih1 ih2 ih3 hma hmb hmc hmd hme hmf ?_
    rw [← hT, hea, heb, hec, hed, hee, hef]
    exact hor
  case sas_1 =>
    rename_i h1 h2 h3 hpa hpb hpc hpd hpe hpf hor ih1 ih2 ih3
    obtain ⟨xa, ya, hma, hea⟩ := mem_of_mem_mapPts hname hpa
    obtain ⟨xb, yb, hmb, heb⟩ := mem_of_mem_mapPts hname hpb
    obtain ⟨xc, yc, hmc, hec⟩ := mem_of_mem_mapPts hname hpc
    obtain ⟨xd, yd, hmd, hed⟩ := mem_of_mem_mapPts hname hpd
    obtain ⟨xe, ye, hme, hee⟩ := mem_of_mem_mapPts hname hpe
    obtain ⟨xf, yf, hmf, hef⟩ := mem_of_mem_mapPts hname hpf
    refine .sas_1 ih1 ih2 ih3 hma hmb hmc hmd hme hmf ?_
    rw [← hT, hea, heb, hec, hed, hee, hef]
    exact hor
  case sas_2 =>
    rename_i h1 h2 h3 hpa hpb hpc hpd hpe hpf hor ih1 ih2 ih3
    obtain ⟨xa, ya, hma, hea⟩ := mem_of_mem_mapPts hname hpa
    obtain ⟨xb, yb, hmb, heb⟩ := mem_of_mem_mapPts hname hpb
    obtain ⟨xc, yc, hmc, hec⟩ := mem_of_mem_mapPts hname hpc
    obtain ⟨xd, yd, hmd, hed⟩ := mem_of_mem_mapPts hname hpd
    obtain ⟨xe, ye, hme, hee⟩ := mem_of_mem_mapPts hname hpe
    obtain ⟨xf, yf, hmf, hef⟩ := mem_of_mem_mapPts hname hpf
    refine .sas_2 ih1 ih2 ih3 hma hmb hmc hmd hme hmf ?_
    rw [← hT, hea, heb, hec, hed, hee, hef]
    exact hor
  case sss_1 =>
    rename_i h1 h2 h3 hpa hpb hpc hpd hpe hpf hor ih1 ih2 ih3
    obtain ⟨xa, ya, hma, hea⟩ := mem_of_mem_mapPts hname hpa
    obtain ⟨xb, yb, hmb, heb⟩ := mem_of_mem_mapPts hname hpb
    obtain ⟨xc, yc, hmc, hec⟩ := mem_of_mem_mapPts hname hpc
    obtain ⟨xd, yd, hmd, hed⟩ := mem_of_mem_mapPts hname hpd
    obtain ⟨xe, ye, hme, hee⟩ := mem_of_mem_mapPts hname hpe
    obtain ⟨xf, yf, hmf, hef⟩ := mem_of_mem_mapPts hname hpf
    refine .sss_1 ih1 ih2 ih3 hma hmb hmc hmd hme hmf ?_
    rw [← hT, hea, heb, hec, hed, hee, hef]
    exact hor
  case sss_2 =>
    rename_i h1 h2 h3 hpa hpb hpc hpd hpe hpf hor ih1 ih2 ih3
    obtain ⟨xa, ya, hma, hea⟩ := mem_of_mem_mapPts hname hpa
    obtain ⟨xb, yb, hmb, heb⟩ := mem_of_mem_mapPts hname hpb
    obtain ⟨xc, yc, hmc, hec⟩ := mem_of_mem_mapPts hname hpc
    obtain ⟨xd, yd, hmd, hed⟩ := mem_of_mem_mapPts hname hpd
    obtain ⟨xe, ye, hme, hee⟩ := mem_of_mem_mapPts hname hpe
    obtain ⟨xf, yf, hmf, hef⟩ := mem_of_mem_mapPts hname hpf
    refine .sss_2 ih1 ih2 ih3 hma hmb hmc hmd hme hmf ?_
    rw [← hT, hea, heb, hec, hed, hee, hef]
    exact hor
  case ssa_1 =>
    rename_i h1 h2 h3 h4 hpa hpb hpc hpd hpe hpf hor haa hdd ih1 ih2 ih3 ih4
    obtain ⟨xa, ya, hma, hea⟩ := mem_of_mem_mapPts hname hpa
    obtain ⟨xb, yb, hmb, heb⟩ := mem_of_mem_mapPts hname hpb
    obtain ⟨xc, yc, hmc, hec⟩ := mem_of_mem_mapPts hname hpc
    obtain ⟨xd, yd, hmd, hed⟩ := mem_of_mem_mapPts hname hpd
    obtain ⟨xe, ye, hme, hee⟩ := mem_of_mem_mapPts hname hpe
    obtain ⟨xf, yf, hmf, hef⟩ := mem_of_mem_mapPts hname hpf
    refine .ssa_1 ih1 ih2 ih3 ih4 hma hmb hmc hmd hme hmf ?_ haa hdd
    rw [← hT, hea, heb, hec, hed, hee, hef]
    exact hor
  case ssa_2 =>
    rename_i h1 h2 h3 h4 hpa hpb hpc hpd hpe hpf hor haa hdd ih1 ih2 ih3 ih4
    obtain ⟨xa, ya, hma, hea⟩ := mem_of_mem_mapPts hname hpa
    obtain ⟨xb, yb, hmb, heb⟩ := mem_of_mem_mapPts hname hpb
    obtain ⟨xc, yc, hmc, hec⟩ := mem_of_mem_mapPts hname hpc
    obtain ⟨xd, yd, hmd, hed⟩ := mem_of_mem_mapPts hname hpd
    obtain ⟨xe, ye, hme, hee⟩ := mem_of_mem_mapPts hname hpe
    obtain ⟨xf, yf, hmf, hef⟩ := mem_of_mem_mapPts hname hpf
    refine .ssa_2 ih1 ih2 ih3 ih4 hma hmb hmc hmd hme hmf ?_ haa hdd
    rw [← hT, hea, heb, hec, hed, hee, hef]
    exact hor
  case inscribed =>
    rename_i h1 h2 h3 h4 h5 ho hb hc hab hac had hbc hbd hcd ih1 ih2 ih3 ih4 ih5
    exact .inscribed ih1 ih2 ih3 ih4 ih5 ho hb hc hab hac had hbc hbd hcd
  case thales =>
    rename_i h1 h2 h3 h4 ho g1 g2 g3 g4 g5 g6 ih1 ih2 ih3 ih4
    exact .thales ih1 ih2 ih3 ih4 ho g1 g2 g3 g4 g5 g6

/-- `wrap64` is the identity on values already in the `i64` range. -/
lemma wrap64_eq_self {z : Int} (h : |z| ≤ 9223372036854775807) : wrap64 z = z := by
  rw [abs_le] at h
  unfold wrap64
  rw [Int.emod_eq_of_lt (by omega) (by omega)]
  omega

/-- On bounded coordinates the `i64` edge term equals the exact one,
and the exact edge term is small. -/
lemma edge_length64_eq {p q : Pt} (hp : boundedPt p) (hq : boundedPt q) :
    edge_length64 p q = edge_length p q ∧ |edge_length p q| ≤ 268435456 := by
  obtain ⟨hp1, hp2⟩ := hp
  obtain ⟨hq1, hq2⟩ := hq
  rw [abs_le] at hp1 hp2 hq1 hq2
  have hd : |q.1 - p.1| ≤ 16384 := abs_le.mpr (by omega)
  have hs : |q.2.1 + p.2.1| ≤ 16384 := abs_le.mpr (by omega)
  have hm : |(q.1 - p.1) * (q.2.1 + p.2.1)| ≤ 268435456 := by
    calc |(q.1 - p.1) * (q.2.1 + p.2.1)| = |q.1 - p.1| * |q.2.1 + p.2.1| := abs_mul _ _
    _ ≤ 16384 * 16384 := mul_le_mul hd hs (abs_nonneg _) (by norm_num)
    _ = 268435456 := by norm_num
  refine ⟨?_, hm⟩
  unfold edge_length64 edge_length
  rw [wrap64_eq_self (le_trans hd (by norm_num)), wrap64_eq_self (le_trans hs (by norm_num)),
    wrap64_eq_self (le_trans hm (by norm_num))]

/-- On bounded coordinates the `i64` signed-area sum on a triple
equals the spec's exact cyclic sum, and that sum is small. -/
lemma polyArea64_triple_eq {p1 p2 p3 : Pt}
    (h1 : boundedPt p1) (h2 : boundedPt p2) (h3 : boundedPt p3) :
    polyArea64 [p1, p2, p3] = specSignedArea p1 p2 p3 ∧
    |specSignedArea p1 p2 p3| ≤ 805306368 := by
  obtain ⟨he1, hb1⟩ := edge_length64_eq h1 h2
  obtain ⟨he2, hb2⟩ := edge_length64_eq h2 h3
  obtain ⟨he3, hb3⟩ := edge_length64_eq h3 h1
  have hstep : polyArea64 [p1, p2, p3] =
      wrap64 (wrap64 (wrap64 (0 + edge_length64 p1 p2) + edge_length64 p2 p3) +
        edge_length64 p3 p1) := by
    simp [polyArea64, List.range_succ]
  have hspec : specSignedArea p1 p2 p3 =
      edge_length p1 p2 + edge_length p2 p3 + edge_length p3 p1 := rfl
  rw [abs_le] at hb1 hb2 hb3
  have s1 : wrap64 (0 + edge_length p1 p2) = 0 + edge_length p1 p2 :=
    wrap64_eq_self (abs_le.mpr (by omega))
  have s2 : wrap64 (0 + edge_length p1 p2 + edge_length p2 p3) =
      0 + edge_length p1 p2 + edge_length p2 p3 :=
    wrap64_eq_self (abs_le.mpr (by omega))
  have s3 : wrap64 (0 + edge_length p1 p2 + edge_length p2 p3 + edge_length p3 p1) =
      0 + edge_length p1 p2 + edge_length p2 p3 + edge_length p3 p1 :=
    wrap64_eq_self (abs_le.mpr (by omega))
  constructor
  · rw [hstep, he1, he2, he3, s1, s2, s3, hspec]
    omega
  · rw [hspec, abs_le]
    omega

/-- On bounded coordinates the `i64` guard agrees with the exact one
and with the spec's criterion. -/
lemma same_orientation64_triple_eq {p1 p2 p3 q1 q2 q3 : Pt}
    (h1 : boundedPt p1) (h2 : boundedPt p2) (h3 : boundedPt p3)
    (k1 : boundedPt q1) (k2 : boundedPt q2) (k3 : boundedPt q3) :
    same_orientation64 [p1, p2, p3] [q1, q2, q3] =
      same_orientation [p1, p2, p3] [q1, q2, q3] ∧
    (same_orientation64 [p1, p2, p3] [q1, q2, q3] = true ↔
      specSignedArea p1 p2 p3 * specSignedArea q1 q2 q3 > 0) := by
  obtain ⟨ha, hba⟩ := polyArea64_triple_eq h1 h2 h3
  obtain ⟨hb, hbb⟩ := polyArea64_triple_eq k1 k2 k3
  have hprod : |specSignedArea p1 p2 p3 * specSignedArea q1 q2 q3| ≤ 648518346341351424 := by
    calc |specSignedArea p1 p2 p3 * specSignedArea q1 q2 q3| =
        |specSignedArea p1 p2 p3| * |specSignedArea q1 q2 q3| := abs_mul _ _
    _ ≤ 805306368 * 805306368 := mul_le_mul hba hbb (abs_nonneg _) (by norm_num)
    _ = 648518346341351424 := by norm_num
  have hw : wrap64 (polyArea64 [p1, p2, p3] * polyArea64 [q1, q2, q3]) =
      specSignedArea p1 p2 p3 * specSignedArea q1 q2 q3 := by
    rw [ha, hb]
    exact wrap64_eq_self (le_trans hprod (by norm_num))
  constructor
  · unfold same_orientation64 same_orientation
    rw [hw, polyArea_triple, polyArea_triple]
  · unfold same_orientation64
    rw [hw, decide_eq_true_eq]

/-- C9 counterexample.  The source computes the guard in `i64`, which
wraps on overflow (release profile): on the legal-`i64` triangle
P(0,0), Q(1,0), R(0,-2^32) — signed area 2^32, squared 2^64 — the
wrapped product is 0, so the guard returns false although the product
of the exactly-computed signed areas is positive (and the exact-
arithmetic idealisation returns true). -/
theorem C9_overflow_counterexample :
    same_orientation64 [(0, 0, "P"), (1, 0, "Q"), (0, -4294967296, "R")]
      [(0, 0, "P"), (1, 0, "Q"), (0, -4294967296, "R")] = false ∧
    specSignedArea (0, 0, "P") (1, 0, "Q") (0, -4294967296, "R") *
      specSignedArea (0, 0, "P") (1, 0, "Q") (0, -4294967296, "R") > 0 ∧
    same_orientation [(0, 0, "P"), (1, 0, "Q"), (0, -4294967296, "R")]
      [(0, 0, "P"), (1, 0, "Q"), (0, -4294967296, "R")] = true :=
  ⟨by decide, by decide, by decide⟩

/-- C9 amended.  The orientation side-condition computes both signed
areas by the spec's cyclic sum and their product in wrapping 64-bit
integer arithmetic and returns true iff the wrapped product is
positive; whenever the coordinates are small enough that no
intermediate value leaves the `i64` range (e.g. |x|,|y| ≤ 8192) this
coincides with the exact-arithmetic criterion "product of the two
cyclic-sum signed areas positive"; and it is the only
coordinate-consuming guard: any name-preserving change of the point
coordinates that leaves the orientation predicate unchanged on point
triples leaves the whole closure (facts and derivations) unchanged. -/
theorem C9_orientation_guard_i64 :
    (∀ l1 l2 : List Pt, same_orientation64 l1 l2 = true ↔
      wrap64 (polyArea64 l1 * polyArea64 l2) > 0) ∧
    (∀ p1 p2 p3 q1 q2 q3 : Pt, boundedPt p1 → boundedPt p2 → boundedPt p3 →
      boundedPt q1 → boundedPt q2 → boundedPt q3 →
      same_orientation64 [p1, p2, p3] [q1, q2, q3] =
        same_orientation [p1, p2, p3] [q1, q2, q3] ∧
      (same_orientation64 [p1, p2, p3] [q1, q2, q3] = true ↔
        specSignedArea p1 p2 p3 * specSignedArea q1 q2 q3 > 0)) ∧
    (∀ T : Pt → Pt, (∀ p : Pt, (T p).2.2 = p.2.2) →
      (∀ u v w u2 v2 w2 : Pt,
        same_orientation [T u, T v, T w] [T u2, T v2, T w2] =
          same_orientation [u, v, w] [u2, v2, w2]) →
      ∀ (db : Inputs) (F : Fact) (pd : Derivation),
        Derives db F pd ↔ Derives (mapPts T db) F pd) := by
  refine ⟨?_, ?_, ?_⟩
  · intro l1 l2
    unfold same_orientation64
    rw [decide_eq_true_eq]
  · intro p1 p2 p3 q1 q2 q3 h1 h2 h3 k1 k2 k3
    exact same_orientation64_triple_eq h1 h2 h3 k1 k2 k3
  · intro T hname hT db F pd
    exact ⟨fun h => derives_mapPts_of_derives hname hT h,
      fun h => derives_of_derives_mapPts hname hT h⟩

/-- Witness for C9 at the scenario-(6) coordinates: all six points are
bounded, and there the `i64` guard and the exact guard agree. -/
theorem C9_orientation_guard_i64_witness :
    same_orientation64 [(0, 0, "A"), (3, 0, "B"), (0, 4, "C")]
        [(10, 0, "D"), (13, 0, "E"), (10, -4, "F")] =
      same_orientation [(0, 0, "A"), (3, 0, "B"), (0, 4, "C")]
        [(10, 0, "D"), (13, 0, "E"), (10, -4, "F")] :=
  (C9_orientation_guard_i64.2.1 (0, 0, "A") (3, 0, "B") (0, 4, "C")
    (10, 0, "D") (13, 0, "E") (10, -4, "F")
    (by decide) (by decide) (by decide) (by decide) (by decide) (by decide)).1

/-! ## The closed set of rule tags -/

/-- Every rule tag the program can attach to a derivation. -/
def ruleTags : List String :=
  ["axiom", "rfl", "sym", "right_angle_eq", "aa_sim", "asa_cong", "sas_cong", "sss_cong",
   "ssa_right_cong", "inscribed_angle_thm", "thales_thm"]

/-- Every derivation in any closure carries one of the program's rule
tags. -/
lemma rule_of_derives {db : Inputs} {F : Fact} {pd : Derivation}
    (h : Derives db F pd) : pd.rule ∈ ruleTags := by
  induction h <;> simp [ruleTags, Derivation.axm]

/-! ## Unordered segment pairs, for the cong/para closure shape -/

/-- Two ordered point pairs denote the same unordered segment. -/
def segEq (p q r s : String) : Prop :=
  (p = r ∧ q = s) ∨ (p = s ∧ q = r)

lemma segEq_swap12 {p q r s : String} (h : segEq p q r s) : segEq q p r s := by
  rcases h with ⟨h1, h2⟩ | ⟨h1, h2⟩
  · exact Or.inr ⟨h2, h1⟩
  · exact Or.inl ⟨h2, h1⟩

lemma segEq_swap34 {p q r s : String} (h : segEq p q r s) : segEq p q s r := by
  rcases h with ⟨h1, h2⟩ | ⟨h1, h2⟩
  · exact Or.inr ⟨h1, h2⟩
  · exact Or.inl ⟨h1, h2⟩

lemma segEq_swap_halves {p q r s : String} (h : segEq p q r s) : segEq r s p q := by
  rcases h with ⟨rfl, rfl⟩ | ⟨rfl, rfl⟩
  · exact Or.inl ⟨rfl, rfl⟩
  · exact Or.inr ⟨rfl, rfl⟩

/-- Shape invariant of the `cong` relation over the scenario-(1)
database: every cong tuple relates a pair of segments that is either a
single segment twice or one of the two axiom pairs (in either order).
Non-cong facts are unconstrained. -/
def congInvTriangle : Fact → Prop
  | .cong p q r s =>
      segEq p q r s ∨
      (segEq p q "A" "B" ∧ segEq r s "B" "C") ∨
      (segEq p q "B" "C" ∧ segEq r s "A" "B") ∨
      (segEq p q "B" "C" ∧ segEq r s "C" "A") ∨
      (segEq p q "C" "A" ∧ segEq r s "B" "C")
  | _ => True

lemma triangle_cong_inv {F : Fact} {pd : Derivation}
    (h : Derives dbTriangle F pd) : congInvTriangle F := by
  induction h <;> try trivial
  case ax_cong =>
    rename_i h
    simp [dbTriangle, Inputs.empty] at h
    rcases h with ⟨rfl, rfl, rfl, rfl⟩ | ⟨rfl, rfl, rfl, rfl⟩
    · exact Or.inr (Or.inl ⟨Or.inl ⟨rfl, rfl⟩, Or.inl ⟨rfl, rfl⟩⟩)
    · exact Or.inr (Or.inr (Or.inr (Or.inl ⟨Or.inl ⟨rfl, rfl⟩, Or.inl ⟨rfl, rfl⟩⟩)))
  case sym_cong_half =>
    rename_i h ih
    rcases ih with h1 | ⟨h1, h2⟩ | ⟨h1, h2⟩ | ⟨h1, h2⟩ | ⟨h1, h2⟩
    · exact Or.inl (segEq_swap_halves h1)
    · exact Or.inr (Or.inr (Or.inl ⟨h2, h1⟩))
    · exact Or.inr (Or.inl ⟨h2, h1⟩)
    · exact Or.inr (Or.inr (Or.inr (Or.inr ⟨h2, h1⟩)))
    · exact Or.inr (Or.inr (Or.inr (Or.inl ⟨h2, h1⟩)))
  case sym_cong_left =>
    rename_i h ih
    rcases ih with h1 | ⟨h1, h2⟩ | ⟨h1, h2⟩ | ⟨h1, h2⟩ | ⟨h1, h2⟩
    · exact Or.inl (segEq_swap12 h1)
    · exact Or.inr (Or.inl ⟨segEq_swap12 h1, h2⟩)
    · exact Or.inr (Or.inr (Or.inl ⟨segEq_swap12 h1, h2⟩))
    · exact Or.inr (Or.inr (Or.inr (Or.inl ⟨segEq_swap12 h1, h2⟩)))
    · exact Or.inr (Or.inr (Or.inr (Or.inr ⟨segEq_swap12 h1, h2⟩)))
  case sym_cong_right =>
    rename_i h ih
    rcases ih with h1 | ⟨h1, h2⟩ | ⟨h1, h2⟩ | ⟨h1, h2⟩ | ⟨h1, h2⟩
    · exact Or.inl (segEq_swap34 h1)
    · exact Or.inr (Or.inl ⟨h1, segEq_swap12 h2⟩)
    · exact Or.inr (Or.inr (Or.inl ⟨h1, segEq_swap12 h2⟩))
    · exact Or.inr (Or.inr (Or.inr (Or.inl ⟨h1, segEq_swap12 h2⟩)))
    · exact Or.inr (Or.inr (Or.inr (Or.inr ⟨h1, segEq_swap12 h2⟩)))
  case rfl_cong =>
    exact Or.inl (Or.inl ⟨rfl, rfl⟩)

/-- In scenario (1) the fact `cong(A,B,C,A)` is not in the closure. -/
lemma triangle_no_cong_trans_fact : ¬ InClosure dbTriangle (.cong "A" "B" "C" "A") := by
  rintro ⟨pd, h⟩
  have hinv := triangle_cong_inv h
  simp only [congInvTriangle] at hinv
  simp [segEq] at hinv

/-- C1 counterexample.  In scenario (1) both premises of the claimed
congruence-transitivity rule are in the closure (as axioms) but its
conclusion `cong(A,B,C,A)` is not in the closure at all, with any
derivation. -/
theorem C1_cong_trans_counterexample :
    Derives dbTriangle (.cong "A" "B" "B" "C") Derivation.axm ∧
    Derives dbTriangle (.cong "B" "C" "C" "A") Derivation.axm ∧
    ¬ InClosure dbTriangle (.cong "A" "B" "C" "A") :=
  ⟨.ax_cong (by simp [dbTriangle]), .ax_cong (by simp [dbTriangle]),
    triangle_no_cong_trans_fact⟩

/-- C1 amended.  The rule base contains no congruence-transitivity
rule: no derivation in any closure is tagged `cong_trans`, and in
scenario (1), although both `cong(A,B,B,C)` and `cong(B,C,C,A)` are in
the closure, `cong(A,B,C,A)` is not. -/
theorem C1_no_cong_trans :
    (∀ (db : Inputs) (F : Fact) (pd : Derivation),
      Derives db F pd → pd.rule ≠ "cong_trans") ∧
    Derives dbTriangle (.cong "A" "B" "B" "C") Derivation.axm ∧
    Derives dbTriangle (.cong "B" "C" "C" "A") Derivation.axm ∧
    ¬ InClosure dbTriangle (.cong "A" "B" "C" "A") :=
  ⟨fun _ _ _ h hc => absurd (hc ▸ rule_of_derives h) (by decide),
    .ax_cong (by simp [dbTriangle]), .ax_cong (by simp [dbTriangle]),
    triangle_no_cong_trans_fact⟩

/-- Shape invariant of the `para` relation over the scenario-(2)
database: every para tuple relates a segment to itself (there are no
para axioms there, and the only para-producing rules are `rfl` and the
symmetries). -/
def paraInvColSym : Fact → Prop
  | .para p q r s => segEq p q r s
  | _ => True

lemma colSym_para_inv {F : Fact} {pd : Derivation}
    (h : Derives dbColSym F pd) : paraInvColSym F := by
  induction h <;> try trivial
  case sym_para_half =>
    rename_i h ih
    exact segEq_swap_halves ih
  case sym_para_left =>
    rename_i h ih
    exact segEq_swap12 ih
  case sym_para_right =>
    rename_i h ih
    exact segEq_swap34 ih
  case rfl_para =>
    exact Or.inl ⟨rfl, rfl⟩

/-- In scenario (2) the fact `para(A,B,A,C)` is not in the closure. -/
lemma colSym_no_para_fact : ¬ InClosure dbColSym (.para "A" "B" "A" "C") := by
  rintro ⟨pd, h⟩
  have hinv := colSym_para_inv h
  simp only [paraInvColSym] at hinv
  simp [segEq] at hinv

/-- C2 counterexample.  In scenario (2) the axiom `col(A,B,C)` over
three pairwise distinct names is in the closure, yet `para(A,B,A,C)`
is not in the closure at all. -/
theorem C2_col_para_counterexample :
    Derives dbColSym (.col "A" "B" "C") Derivation.axm ∧
    ("A" : String) ≠ "B" ∧ ("A" : String) ≠ "C" ∧ ("B" : String) ≠ "C" ∧
    ¬ InClosure dbColSym (.para "A" "B" "A" "C") :=
  ⟨.ax_col (by simp [dbColSym]), by decide, by decide, by decide, colSym_no_para_fact⟩

/-- C2 amended.  The rule base contains no Col⇒Para rule: no
derivation in any closure is tagged `col_para`, and in scenario (2)
all six permutations of the collinearity axiom are in the closure but
`para(A,B,A,C)` is not. -/
theorem C2_no_col_para :
    (∀ (db : Inputs) (F : Fact) (pd : Derivation),
      Derives db F pd → pd.rule ≠ "col_para") ∧
    Derives dbColSym (.col "A" "B" "C") Derivation.axm ∧
    InClosure dbColSym (.col "C" "B" "A") ∧
    InClosure dbColSym (.col "A" "C" "B") ∧
    InClosure dbColSym (.col "C" "A" "B") ∧
    InClosure dbColSym (.col "B" "C" "A") ∧
    InClosure dbColSym (.col "B" "A" "C") ∧
    ¬ InClosure dbColSym (.para "A" "B" "A" "C") := by
  have h0 : Derives dbColSym (.col "A" "B" "C") Derivation.axm :=
    .ax_col (by simp [dbColSym])
  have hCBA := Derives.sym_col_rev h0
  have hACB := Derives.sym_col_swap h0
  have hCAB := Derives.sym_col_swap hCBA
  have hBCA := Derives.sym_col_rev hACB
  have hBAC := Derives.sym_col_rev hCAB
  exact ⟨fun _ _ _ h hc => absurd (hc ▸ rule_of_derives h) (by decide),
    h0, ⟨_, hCBA⟩, ⟨_, hACB⟩, ⟨_, hCAB⟩, ⟨_, hBCA⟩, ⟨_, hBAC⟩, colSym_no_para_fact⟩

/-! ## Names occurring in facts -/

/-- The point names a fact mentions, in argument order. -/
def factNames : Fact → List String
  | .col a b c => [a, b, c]
  | .para a b c d => [a, b, c, d]
  | .perp a b c d => [a, b, c, d]
  | .cong a b c d => [a, b, c, d]
  | .eqangle a b c d e f => [a, b, c, d, e, f]
  | .cyclic a b c d => [a, b, c, d]
  | .sameclock a b c d e f => [a, b, c, d, e, f]
  | .midp a b c => [a, b, c]
  | .contri1 a b c d e f => [a, b, c, d, e, f]
  | .contri2 a b c d e f => [a, b, c, d, e, f]
  | .simtri1 a b c d e f => [a, b, c, d, e, f]
  | .simtri2 a b c d e f => [a, b, c, d, e, f]
  | .eqratio a b c d e f g h => [a, b, c, d, e, f, g, h]
  | .aconst a b c _ _ => [a, b, c]

/-- A name occurs in the inputs: as a point name of the universe or in
one of the added axiom facts. -/
def inputName (db : Inputs) (n : String) : Prop :=
  (∃ x y, (x, y, n) ∈ db.points) ∨ ∃ F ∈ inputFacts db, n ∈ factNames F

lemma mem_inputFacts_col {db : Inputs} {a b c : String}
    (h : (a, b, c) ∈ db.col_facts) : Fact.col a b c ∈ inputFacts db := by
  simp only [inputFacts, List.mem_append]
  exact Or.inl (Or.inl (Or.inl (Or.inl (Or.inl (Or.inl (Or.inl (Or.inl (Or.inl (Or.inl
    (Or.inl (Or.inl (Or.inl (List.mem_map_of_mem _ h)))))))))))))

lemma mem_inputFacts_para {db : Inputs} {a b c d : String}
    (h : (a, b, c, d) ∈ db.para_facts) : Fact.para a b c d ∈ inputFacts db := by
  simp only [inputFacts, List.mem_append]
  exact Or.inl (Or.inl (Or.inl (Or.inl (Or.inl (Or.inl (Or.inl (Or.inl (Or.inl (Or.inl
    (Or.inl (Or.inl (Or.inr (List.mem_map_of_mem _ h)))))))))))))

lemma mem_inputFacts_perp {db : Inputs} {a b c d : String}
    (h : (a, b, c, d) ∈ db.perp_facts) : Fact.perp a b c d ∈ inputFacts db := by
  simp only [inputFacts, List.mem_append]
  exact Or.inl (Or.inl (Or.inl (Or.inl (Or.inl (Or.inl (Or.inl (Or.inl (Or.inl (Or.inl
    (Or.inl (Or.inr (List.mem_map_of_mem _ h))))))))))))

lemma mem_inputFacts_cong {db : Inputs} {a b c d : String}
    (h : (a, b, c, d) ∈ db.cong_facts) : Fact.cong a b c d ∈ inputFacts db := by
  simp only [inputFacts, List.mem_append]
  exact Or.inl (Or.inl (Or.inl (Or.inl (Or.inl (Or.inl (Or.inl (Or.inl (Or.inl (Or.inl
    (Or.inr (List.mem_map_of_mem _ h)))))))))))

lemma mem_inputFacts_eqangle {db : Inputs} {a b c d e f : String}
    (h : (a, b, c, d, e, f) ∈ db.eqangle_facts) :
    Fact.eqangle a b c d e f ∈ inputFacts db := by
  simp only [inputFacts, List.mem_append]
  exact Or.inl (Or.inl (Or.inl (Or.inl (Or.inl (Or.inl (Or.inl (Or.inl (Or.inl
    (Or.inr (List.mem_map_of_mem _ h))))))))))

lemma mem_inputFacts_cyclic {db : Inputs} {a b c d : String}
    (h : (a, b, c, d) ∈ db.cyclic_facts) : Fact.cyclic a b c d ∈ inputFacts db := by
  simp only [inputFacts, List.mem_append]
  exact Or.inl (Or.inl (Or.inl (Or.inl (Or.inl (Or.inl (Or.inl (Or.inl
    (Or.inr (List.mem_map_of_mem _ h)))))))))

lemma mem_inputFacts_sameclock {db : Inputs} {a b c d e f : String}
    (h : (a, b, c, d, e, f) ∈ db.sameclock_facts) :
    Fact.sameclock a b c d e f ∈ inputFacts db := by
  simp only [inputFacts, List.mem_append]
  exact Or.inl (Or.inl (Or.inl (Or.inl (Or.inl (Or.inl (Or.inl
    (Or.inr (List.mem_map_of_mem _ h))))))))

lemma mem_inputFacts_midp {db : Inputs} {a b c : String}
    (h : (a, b, c) ∈ db.midp_facts) : Fact.midp a b c ∈ inputFacts db := by
  simp only [inputFacts, List.mem_append]
  exact Or.inl (Or.inl (Or.inl (Or.inl (Or.inl (Or.inl
    (Or.inr (List.mem_map_of_mem _ h)))))))

lemma mem_inputFacts_contri1 {db : Inputs} {a b c d e f : String}
    (h : (a, b, c, d, e, f) ∈ db.contri1_facts) :
    Fact.contri1 a b c d e f ∈ inputFacts db := by
  simp only [inputFacts, List.mem_append]
  exact Or.inl (Or.inl (Or.inl (Or.inl (Or.inl
    (Or.inr (List.mem_map_of_mem _ h))))))

lemma mem_inputFacts_contri2 {db : Inputs} {a b c d e f : String}
    (h : (a, b, c, d, e, f) ∈ db.contri2_facts) :
    Fact.contri2 a b c d e f ∈ inputFacts db := by
  simp only [inputFacts, List.mem_append]
  exact Or.inl (Or.inl (Or.inl (Or.inl
    (Or.inr (List.mem_map_of_mem _ h)))))

lemma mem_inputFacts_simtri1 {db : Inputs} {a b c d e f : String}
    (h : (a, b, c, d, e, f) ∈ db.simtri1_facts) :
    Fact.simtri1 a b c d e f ∈ inputFacts db := by
  simp only [inputFacts, List.mem_append]
  exact Or.inl (Or.inl (Or.inl
    (Or.inr (List.mem_map_of_mem _ h))))

lemma mem_inputFacts_simtri2 {db : Inputs} {a b c d e f : String}
    (h : (a, b, c, d, e, f) ∈ db.simtri2_facts) :
    Fact.simtri2 a b c d e f ∈ inputFacts db := by
  simp only [inputFacts, List.mem_append]
  exact Or.inl (Or.inl (Or.inr (List.mem_map_of_mem _ h)))

lemma mem_inputFacts_eqratio {db : Inputs} {a b c d e f g h : String}
    (hm : (a, b, c, d, e, f, g, h) ∈ db.eqratio_facts) :
    Fact.eqratio a b c d e f g h ∈ inputFacts db := by
  simp only [inputFacts, List.mem_append]
  exact Or.inl (Or.inr (List.mem_map_of_mem _ hm))

lemma mem_inputFacts_aconst {db : Inputs} {a b c : String} {m n : Int}
    (h : (a, b, c, m, n) ∈ db.aconst_facts) : Fact.aconst a b c m n ∈ inputFacts db := by
  simp only [inputFacts, List.mem_append]
  exact Or.inr (List.mem_map_of_mem _ h)

set_option maxHeartbeats 3200000 in
/-- No rule introduces a new point name: every name of every closure
fact occurs in the inputs. -/
lemma derives_names {db : Inputs} {F : Fact} {pd : Derivation}
    (h : Derives db F pd) : ∀ n ∈ factNames F, inputName db n := by
  induction h
  case ax_col => rename_i h; exact fun n hn => Or.inr ⟨_, mem_inputFacts_col h, hn⟩
  case ax_para => rename_i h; exact fun n hn => Or.inr ⟨_, mem_inputFacts_para h, hn⟩
  case ax_perp => rename_i h; exact fun n hn => Or.inr ⟨_, mem_inputFacts_perp h, hn⟩
  case ax_cong => rename_i h; exact fun n hn => Or.inr ⟨_, mem_inputFacts_cong h, hn⟩
  case ax_eqangle => rename_i h; exact fun n hn => Or.inr ⟨_, mem_inputFacts_eqangle h, hn⟩
  case ax_cyclic => rename_i h; exact fun n hn => Or.inr ⟨_, mem_inputFacts_cyclic h, hn⟩
  case ax_sameclock => rename_i h; exact fun n hn => Or.inr ⟨_, mem_inputFacts_sameclock h, hn⟩
  case ax_midp => rename_i h; exact fun n hn => Or.inr ⟨_, mem_inputFacts_midp h, hn⟩
  case ax_contri1 => rename_i h; exact fun n hn => Or.inr ⟨_, mem_inputFacts_contri1 h, hn⟩
  case ax_contri2 => rename_i h; exact fun n hn => Or.inr ⟨_, mem_inputFacts_contri2 h, hn⟩
  case ax_simtri1 => rename_i h; exact fun n hn => Or.inr ⟨_, mem_inputFacts_simtri1 h, hn⟩
  case ax_simtri2 => rename_i h; exact fun n hn => Or.inr ⟨_, mem_inputFacts_simtri2 h, hn⟩
  case ax_eqratio => rename_i h; exact fun n hn => Or.inr ⟨_, mem_inputFacts_eqratio h, hn⟩
  case ax_aconst => rename_i h; exact fun n hn => Or.inr ⟨_, mem_inputFacts_aconst h, hn⟩
  case sym_col_rev =>
    rename_i h ih
    intro n hn
    apply ih
    simp only [factNames, List.mem_cons, List.not_mem_nil, or_false] at hn ⊢
    tauto
  case sym_col_swap =>
    rename_i h ih
    intro n hn
    apply ih
    simp only [factNames, List.mem_cons, List.not_mem_nil, or_false] at hn ⊢
    tauto
  case sym_para_half =>
    rename_i h ih
    intro n hn
    apply ih
    simp only [factNames, List.mem_cons, List.not_mem_nil, or_false] at hn ⊢
    tauto
  case sym_para_left =>
    rename_i h ih
    intro n hn
    apply ih
    simp only [factNames, List.mem_cons, List.not_mem_nil, or_false] at hn ⊢
    tauto
  case sym_para_right =>
    rename_i h ih
    intro n hn
    apply ih
    simp only [factNames, List.mem_cons, List.not_mem_nil, or_false] at hn ⊢
    tauto
  case sym_perp_half =>
    rename_i h ih
    intro n hn
    apply ih
    simp only [factNames, List.mem_cons, List.not_mem_nil, or_false] at hn ⊢
    tauto
  case sym_perp_left =>
    rename_i h ih
    intro n hn
    apply ih
    simp only [factNames, List.mem_cons, List.not_mem_nil, or_false] at hn ⊢
    tauto
  case sym_perp_right =>
    rename_i h ih
    intro n hn
    apply ih
    simp only [factNames, List.mem_cons, List.not_mem_nil, or_false] at hn ⊢
    tauto
  case sym_cong_half =>
    rename_i h ih
    intro n hn
    apply ih
    simp only [factNames, List.mem_cons, List.not_mem_nil, or_false] at hn ⊢
    tauto
  case sym_cong_left =>
    rename_i h ih
    intro n hn
    apply ih
    simp only [factNames, List.mem_cons, List.not_mem_nil, or_false] at hn ⊢
    tauto
  case sym_cong_right =>
    rename_i h ih
    intro n hn
    apply ih
    simp only [factNames, List.mem_cons, List.not_mem_nil, or_false] at hn ⊢
    tauto
  case sym_eqangle_half =>
    rename_i h ih
    intro n hn
    apply ih
    simp only [factNames, List.mem_cons, List.not_mem_nil, or_false] at hn ⊢
    tauto
  case sym_eqangle_rev =>
    rename_i h ih
    intro n hn
    apply ih
    simp only [factNames, List.mem_cons, List.not_mem_nil, or_false] at hn ⊢
    tauto
  case sym_cyclic_rot =>
    rename_i h ih
    intro n hn
    apply ih
    simp only [factNames, List.mem_cons, List.not_mem_nil, or_false] at hn ⊢
    tauto
  case sym_cyclic_swap =>
    rename_i h ih
    intro n hn
    apply ih
    simp only [factNames, List.mem_cons, List.not_mem_nil, or_false] at hn ⊢
    tauto
  case sym_sameclock_half =>
    rename_i h ih
    intro n hn
    apply ih
    simp only [factNames, List.mem_cons, List.not_mem_nil, or_false] at hn ⊢
    tauto
  case sym_sameclock_rot =>
    rename_i h ih
    intro n hn
    apply ih
    simp only [factNames, List.mem_cons, List.not_mem_nil, or_false] at hn ⊢
    tauto
  case sym_sameclock_rev =>
    rename_i h ih
    intro n hn
    apply ih
    simp only [factNames, List.mem_cons, List.not_mem_nil, or_false] at hn ⊢
    tauto
  case sym_eqratio_half =>
    rename_i h ih
    intro n hn
    apply ih
    simp only [factNames, List.mem_cons, List.not_mem_nil, or_false] at hn ⊢
    tauto
  case sym_eqratio_pairs =>
    rename_i h ih
    intro n hn
    apply ih
    simp only [factNames, List.mem_cons, List.not_mem_nil, or_false] at hn ⊢
    tauto
  case sym_eqratio_cross =>
    rename_i h ih
    intro n hn
    apply ih
    simp only [factNames, List.mem_cons, List.not_mem_nil, or_false] at hn ⊢
    tauto
  case rfl_cong =>
    rename_i h1 h2 hne
    intro n hn
    simp only [factNames, List.mem_cons, List.not_mem_nil, or_false] at hn
    rcases hn with rfl | rfl | rfl | rfl
    exacts [Or.inl ⟨_, _, h1⟩, Or.inl ⟨_, _, h2⟩, Or.inl ⟨_, _, h1⟩, Or.inl ⟨_, _, h2⟩]
  case rfl_para =>
    rename_i h1 h2 hne
    intro n hn
    simp only [factNames, List.mem_cons, List.not_mem_nil, or_false] at hn
    rcases hn with rfl | rfl | rfl | rfl
    exacts [Or.inl ⟨_, _, h1⟩, Or.inl ⟨_, _, h2⟩, Or.inl ⟨_, _, h1⟩, Or.inl ⟨_, _, h2⟩]
  case rfl_eqangle =>
    rename_i h1 h2 h3 hab hac hbc
    intro n hn
    simp only [factNames, List.mem_cons, List.not_mem_nil, or_false] at hn
    rcases hn with rfl | rfl | rfl | rfl | rfl | rfl
    exacts [Or.inl ⟨_, _, h1⟩, Or.inl ⟨_, _, h2⟩, Or.inl ⟨_, _, h3⟩,
      Or.inl ⟨_, _, h1⟩, Or.inl ⟨_, _, h2⟩, Or.inl ⟨_, _, h3⟩]
  case right_angle_eq =>
    rename_i h1 h2 hb he g1 g2 g3 g4 g5 g6 ih1 ih2
    intro n hn
    simp only [factNames, List.mem_cons, List.not_mem_nil, or_false] at hn
    rcases hn with rfl | rfl | rfl | rfl | rfl | rfl
    exacts [ih1 _ (by simp [factNames]), ih1 _ (by simp [factNames]),
      ih1 _ (by simp [factNames]), ih1 _ (by simp [factNames]),
      ih2 _ (by simp [factNames]), ih1 _ (by simp [factNames])]
  case aa_sim_1 =>
    rename_i h1 h2 hpa hpb hpc hpd hpe hpf hor ih1 ih2
    intro n hn
    simp only [factNames, List.mem_cons, List.not_mem_nil, or_false] at hn
    rcases hn with rfl | rfl | rfl | rfl | rfl | rfl
    exacts [Or.inl ⟨_, _, hpa⟩, Or.inl ⟨_, _, hpb⟩, Or.inl ⟨_, _, hpc⟩,
      Or.inl ⟨_, _, hpd⟩, Or.inl ⟨_, _, hpe⟩, Or.inl ⟨_, _, hpf⟩]
  case aa_sim_2 =>
    rename_i h1 h2 hpa hpb hpc hpd hpe hpf hor ih1 ih2
    intro n hn
    simp only [factNames, List.mem_cons, List.not_mem_nil, or_false] at hn
    rcases hn with rfl | rfl | rfl | rfl | rfl | rfl
    exacts [Or.inl ⟨_, _, hpa⟩, Or.inl ⟨_, _, hpb⟩, Or.inl ⟨_, _, hpc⟩,
      Or.inl ⟨_, _, hpd⟩, Or.inl ⟨_, _, hpe⟩, Or.inl ⟨_, _, hpf⟩]
  case asa_1 =>
    rename_i h1 h2 h3 hpa hpb hpc hpd hpe hpf hor ih1 ih2 ih3
    intro n hn
    simp only [factNames, List.mem_cons, List.not_mem_nil, or_false] at hn
    rcases hn with rfl | rfl | rfl | rfl | rfl | rfl
    exacts [Or.inl ⟨_, _, hpa⟩, Or.inl ⟨_, _, hpb⟩, Or.inl ⟨_, _, hpc⟩,
      Or.inl ⟨_, _, hpd⟩, Or.inl ⟨_, _, hpe⟩, Or.inl ⟨_, _, hpf⟩]
  case asa_2 =>
    rename_i h1 h2 h3 hpa hpb hpc hpd hpe hpf hor ih1 ih2 ih3
    intro n hn
    simp only [factNames, List.mem_cons, List.not_mem_nil, or_false] at hn
    rcases hn with rfl | rfl | rfl | rfl | rfl | rfl
    exacts [Or.inl ⟨_, _, hpa⟩, Or.inl ⟨_, _, hpb⟩, Or.inl ⟨_, _, hpc⟩,
      Or.inl ⟨_, _, hpd⟩, Or.inl ⟨_, _, hpe⟩, Or.inl ⟨_, _, hpf⟩]
  case sas_1 =>
    rename_i h1 h2 h3 hpa hpb hpc hpd hpe hpf hor ih1 ih2 ih3
    intro n hn
    simp only [factNames, List.mem_cons, List.not_mem_nil, or_false] at hn
    rcases hn with rfl | rfl | rfl | rfl | rfl | rfl
    exacts [Or.inl ⟨_, _, hpa⟩, Or.inl ⟨_, _, hpb⟩, Or.inl ⟨_, _, hpc⟩,
      Or.inl ⟨_, _, hpd⟩, Or.inl ⟨_, _, hpe⟩, Or.inl ⟨_, _, hpf⟩]
  case sas_2 =>
    rename_i h1 h2 h3 hpa hpb hpc hpd hpe hpf hor ih1 ih2 ih3
    intro n hn
    simp only [factNames, List.mem_cons, List.not_mem_nil, or_false] at hn
    rcases hn with rfl | rfl | rfl | rfl | rfl | rfl
    exacts [Or.inl ⟨_, _, hpa⟩, Or.inl ⟨_, _, hpb⟩, Or.inl ⟨_, _, hpc⟩,
      Or.inl ⟨_, _, hpd⟩, Or.inl ⟨_, _, hpe⟩, Or.inl ⟨_, _, hpf⟩]
  case sss_1 =>
    rename_i h1 h2 h3 hpa hpb hpc hpd hpe hpf hor ih1 ih2 ih3
    intro n hn
    simp only [factNames, List.mem_cons, List.not_mem_nil, or_false] at hn
    rcases hn with rfl | rfl | rfl | rfl | rfl | rfl
    exacts [Or.inl ⟨_, _, hpa⟩, Or.inl ⟨_, _, hpb⟩, Or.inl ⟨_, _, hpc⟩,
      Or.inl ⟨_, _, hpd⟩, Or.inl ⟨_, _, hpe⟩, Or.inl ⟨_, _, hpf⟩]
  case sss_2 =>
    rename_i h1 h2 h3 hpa hpb hpc hpd hpe hpf hor ih1 ih2 ih3
    intro n hn
    simp only [factNames, List.mem_cons, List.not_mem_nil, or_false] at hn
    rcases hn with rfl | rfl | rfl | rfl | rfl | rfl
    exacts [Or.inl ⟨_, _, hpa⟩, Or.inl ⟨_, _, hpb⟩, Or.inl ⟨_, _, hpc⟩,
      Or.inl ⟨_, _, hpd⟩, Or.inl ⟨_, _, hpe⟩, Or.inl ⟨_, _, hpf⟩]
  case ssa_1 =>
    rename_i h1 h2 h3 h4 hpa hpb hpc hpd hpe hpf hor haa hdd ih1 ih2 ih3 ih4
    intro n hn
    simp only [factNames, List.mem_cons, List.not_mem_nil, or_false] at hn
    rcases hn with rfl | rfl | rfl | rfl | rfl | rfl
    exacts [Or.inl ⟨_, _, hpa⟩, Or.inl ⟨_, _, hpb⟩, Or.inl ⟨_, _, hpc⟩,
      Or.inl ⟨_, _, hpd⟩, Or.inl ⟨_, _, hpe⟩, Or.inl ⟨_, _, hpf⟩]
  case ssa_2 =>
    rename_i h1 h2 h3 h4 hpa hpb hpc hpd hpe hpf hor haa hdd ih1 ih2 ih3 ih4
    intro n hn
    simp only [factNames, List.mem_cons, List.not_mem_nil, or_false] at hn
    rcases hn with rfl | rfl | rfl | rfl | rfl | rfl
    exacts [Or.inl ⟨_, _, hpa⟩, Or.inl ⟨_, _, hpb⟩, Or.inl ⟨_, _, hpc⟩,
      Or.inl ⟨_, _, hpd⟩, Or.inl ⟨_, _, hpe⟩, Or.inl ⟨_, _, hpf⟩]
  case inscribed =>
    rename_i h1 h2 h3 h4 h5 ho hb hc g1 g2 g3 g4 g5 g6 ih1 ih2 ih3 ih4 ih5
    intro n hn
    simp only [factNames, List.mem_cons, List.not_mem_nil, or_false] at hn
    rcases hn with rfl | rfl | rfl | rfl | rfl | rfl
    exacts [ih1 _ (by simp [factNames]), ih1 _ (by simp [factNames]),
      ih2 _ (by simp [factNames]), ih2 _ (by simp [factNames]),
      ih1 _ (by simp [factNames]), ih4 _ (by simp [factNames])]
  case thales =>
    rename_i h1 h2 h3 h4 ho g1 g2 g3 g4 g5 g6 ih1 ih2 ih3 ih4
    intro n hn
    simp only [factNames, List.mem_cons, List.not_mem_nil, or_false] at hn
    rcases hn with rfl | rfl | rfl | rfl
    exacts [ih1 _ (by simp [factNames]), ih1 _ (by simp [factNames]),
      ih1 _ (by simp [factNames]), ih1 _ (by simp [factNames])]

/-- C3 counterexample.  With an empty point universe and the single
axiom `col(X,Y,Z)`, the closure contains `col(X,Y,Z)`, a fact whose
name `X` belongs to no point of the universe: unknown-name axioms are
not filtered out of the output. -/
theorem C3_unknown_name_counterexample :
    Derives dbUnknownName (.col "X" "Y" "Z") Derivation.axm ∧
    (∀ x y : Int, (x, y, "X") ∉ dbUnknownName.points) :=
  ⟨.ax_col (by simp [dbUnknownName]), by simp [dbUnknownName, Inputs.empty]⟩

/-- C3 amended.  Every point name occurring in a fact of the closure
occurs in the inputs — in the point universe or in an added axiom
fact (rules introduce no new names); axiom facts themselves are not
checked against the universe, so an axiom naming an unknown point does
appear in the output. -/
theorem C3_closure_names :
    (∀ (db : Inputs) (F : Fact) (pd : Derivation), Derives db F pd →
      ∀ n ∈ factNames F, inputName db n) ∧
    Derives dbUnknownName (.col "X" "Y" "Z") Derivation.axm ∧
    (∀ x y : Int, (x, y, "X") ∉ dbUnknownName.points) :=
  ⟨fun _ _ _ h => derives_names h,
    .ax_col (by simp [dbUnknownName]), by simp [dbUnknownName, Inputs.empty]⟩

/-! ## Scenario (6): SSS with the mirrored target triangle -/

/-- In scenario (6), `contri2(A,B,C,D,E,F)` is derived by SSS. -/
lemma mirror_contri2 :
    Derives dbMirror (.contri2 "A" "B" "C" "D" "E" "F")
      ⟨"sss_cong", {fact_id "cong" ["A", "C", "D", "F"], fact_id "cong" ["A", "B", "D", "E"],
        fact_id "cong" ["C", "B", "F", "E"]}⟩ := by
  have hCB : Derives dbMirror (.cong "C" "B" "F" "E")
      ⟨"sym", {fact_id "cong" ["C", "B", "E", "F"]}⟩ :=
    .sym_cong_right (.sym_cong_left (.ax_cong (by simp [dbMirror])))
  exact @Derives.sss_2 dbMirror "A" "B" "C" "D" "E" "F" 0 0 3 0 0 4 10 0 13 0 10 (-4)
    Derivation.axm Derivation.axm _
    (.ax_cong (by simp [dbMirror])) (.ax_cong (by simp [dbMirror])) hCB
    (by simp [dbMirror, Inputs.empty]) (by simp [dbMirror, Inputs.empty])
    (by simp [dbMirror, Inputs.empty]) (by simp [dbMirror, Inputs.empty])
    (by simp [dbMirror, Inputs.empty]) (by simp [dbMirror, Inputs.empty])
    (by decide)

/-- In scenario (6), `contri1(A,B,C,D,E,F)` is not in the closure:
every rule with a `contri1` head is guarded by the direct-orientation
check, which fails on the mirrored configuration. -/
lemma mirror_no_contri1 : ¬ InClosure dbMirror (.contri1 "A" "B" "C" "D" "E" "F") := by
  rintro ⟨pd, h⟩
  cases h <;>
    subst_vars <;>
    simp_all [dbMirror, Inputs.empty, same_orientation, polyArea, edge_length, List.range_succ]

/-- C6.  SSS congruence discriminates chirality: in scenario (6) (the
mirrored point F at (10,-4)) the closure contains
`contri2(A,B,C,D,E,F)` tagged `sss_cong` and does not contain
`contri1(A,B,C,D,E,F)`. -/
theorem C6_sss_chirality :
    Derives dbMirror (.contri2 "A" "B" "C" "D" "E" "F")
      ⟨"sss_cong", {fact_id "cong" ["A", "C", "D", "F"], fact_id "cong" ["A", "B", "D", "E"],
        fact_id "cong" ["C", "B", "F", "E"]}⟩ ∧
    ¬ InClosure dbMirror (.contri1 "A" "B" "C" "D" "E" "F") :=
  ⟨mirror_contri2, mirror_no_contri1⟩

end AscentGeo
